import Mathlib

/-!
# sockol/trase-demo: request-to-transaction execution model

A shallow embedding of the Go sources under `api/cmd/api`:

* `utils/db.go`        : `beginTx`
* `handlers/helpers.go`: `HTTPError`, `NewHTTPError`
* `handlers/users.go`, `handlers/posts.go`: the entity store (`UsersGetTx`, ...)
* `handlers_users.go`, `handlers_posts.go`: the HTTP handlers (`usersGet`, ...)
* `middleware.go`      : `handleQuery`, `handleMutation`

Go values of type `error` are modelled by `GoError` (`none : Option GoError` is a
nil error), pointers by `Option`, closures with captured variables by explicit
state passing, and the SQL server behind `*sql.Tx` by a state `Tx` holding the two
tables together with the answers the server is going to give (`Draw`).
-/

namespace Trase

/-! ## Values -/

/-- A `uuid.UUID`; `uuid.Nil` is `0`. -/
abbrev UUID := Nat

/-- The zero identifier `uuid.Nil`. -/
def uuidNil : UUID := 0

/-- An instant (`time.Time`); the zero time is `0`. -/
abbrev Time := Nat

/-- Go values of the interface type `error` that occur in the program:
the sentinel `sql.ErrNoRows`, errors made from a text (`fmt.Errorf`, and the errors of
the driver and of the libraries, told apart by their text), and `*handlers.HTTPError`
(helpers.go: `type HTTPError struct { Code int; Message error }`). -/
inductive GoError where
  | ErrNoRows
  | errorf (text : String)
  | HTTPError (Code : Int) (Message : GoError)
  deriving DecidableEq, Repr

/-- helpers.go `func NewHTTPError(code int, err error) *HTTPError`. -/
def NewHTTPError (code : Int) (err : GoError) : GoError :=
  GoError.HTTPError code err

/-- The method `Error() string`; for `*HTTPError` it is
`fmt.Sprintf("Error Code %d: %s", e.Code, e.Message)` (helpers.go). -/
def GoError.Error : GoError → String
  | .ErrNoRows => "sql: no rows in result set"
  | .errorf text => text
  | .HTTPError code msg => "Error Code " ++ toString code ++ ": " ++ msg.Error

/-- The type assertion `err.(*handlers.HTTPError)` of middleware.go: the code and
the message when `err` is a `*HTTPError`. -/
def GoError.asHTTPError : GoError → Option (Int × GoError)
  | .HTTPError code msg => some (code, msg)
  | _ => none

/-- `http.StatusOK`. -/
def StatusOK : Int := 200
/-- `http.StatusBadRequest`. -/
def StatusBadRequest : Int := 400
/-- `http.StatusNotFound`. -/
def StatusNotFound : Int := 404
/-- `http.StatusInternalServerError`. -/
def StatusInternalServerError : Int := 500

/-- How a Go call ends: it returns a value or it panics (a nil pointer dereference). -/
inductive Ret (α : Type) where
  | returned (v : α)
  | panicked (msg : String)
  deriving DecidableEq, Repr

/-- The text of the runtime panic raised by dereferencing a nil pointer. -/
def nilDeref : String := "runtime error: invalid memory address or nil pointer dereference"

/-! ## Entities (handlers/users.go, handlers/posts.go) -/

/-- The struct `User` of handlers/users.go. -/
structure User where
  Id : UUID
  Email : String
  Name : String
  CreatedAt : Time
  UpdatedAt : Option Time
  deriving DecidableEq, Repr

/-- The struct `UserInput`. -/
structure UserInput where
  Name : String
  Email : String
  deriving DecidableEq, Repr

/-- The struct `Post` of handlers/posts.go. -/
structure Post where
  Id : UUID
  Title : String
  Content : String
  UserId : UUID
  CreatedAt : Time
  UpdatedAt : Option Time
  deriving DecidableEq, Repr

/-- The struct `PostInput`. -/
structure PostInput where
  Title : String
  Content : String
  UserId : UUID
  deriving DecidableEq, Repr

/-- The zero value `User{}`. -/
def User.zero : User := ⟨uuidNil, "", "", 0, none⟩

/-- The zero value `Post{}`. -/
def Post.zero : Post := ⟨uuidNil, "", "", uuidNil, 0, none⟩

/-! ## The database behind a transaction -/

/-- Modelled from the spec: the declarations of the tables `users` and `posts` are
not among the sources. The spec gives the columns, an identifier that is "unique,
immutable, generated by the store on creation", a creation timestamp "set once", a
nullable update timestamp and `posts.user_id` "a foreign key into `users.id`". Two
points are parameters here. Whether an update sets `updated_at`: the `UPDATE`
statements of the sources do not name the column, so only the schema (a trigger) can
set it. Whether deleting a user cascades to its posts: the spec leaves it open as a
question; `TestUsersDeleteTx` deletes `UserId2`, which `PostId2` refers to, and expects
no error. -/
structure Schema where
  touchUpdatedAt : Bool
  cascadeDelete : Bool
  deriving DecidableEq, Repr

/-- What the server answers to one statement, whatever the tables hold: a failure of
the statement as a whole (`fault`), the randomness of the identifier default
(`entropy`), the clock (`now`), and for a multi-row query a row whose `rows.Scan`
fails (`scanFail`, by position) or a position at which `rows.Next` stops with a pending
`rows.Err` (`nextFail`). -/
structure Draw where
  fault : Option GoError
  entropy : Nat
  now : Time
  scanFail : Option (Nat × GoError)
  nextFail : Option (Nat × GoError)
  deriving DecidableEq, Repr

/-- The answer of a server that does not fail. -/
def Draw.quiet : Draw := ⟨none, 0, 0, none, none⟩

/-- The exported store functions, as they appear in the log of calls. -/
inductive Call where
  | UsersGetTx | UsersCreateTx | UsersUpdateTx | UsersDeleteTx | UsersGetAllTx
  | PostsGetTx | PostsCreateTx | PostsUpdateTx | PostsDeleteTx | PostsGetAllTx
  deriving DecidableEq, Repr

/-- A transaction handle `*sql.Tx`: the tables as the transaction sees them, the
schema, the answers the server will give to the coming statements, and the store
functions called on the handle so far. -/
structure Tx where
  users : List User
  posts : List Post
  schema : Schema
  draws : List Draw
  calls : List Call
  deriving DecidableEq, Repr

/-- The implementation of `IDB` held by the application (`utils.DB`): whether `Open`,
`conn.BeginTx` and `tx.Commit` are going to fail, and the durable tables. -/
structure DB where
  openErr : Option GoError
  beginErr : Option GoError
  commitErr : Option GoError
  users : List User
  posts : List Post
  schema : Schema
  draws : List Draw
  deriving DecidableEq, Repr

/-! ## utils/db.go -/

/-- The steps of `beginTx`. -/
inductive Step where
  | Open | BeginTx | fn | Commit
  deriving DecidableEq, Repr

/-- The unit of work `type txFn func(tx *sql.Tx) error`, with the variables its closure
captures (`σ`) passed explicitly: it returns an error value or panics, and leaves the
handle and the captured variables changed. -/
abbrev txFn (σ : Type) := Tx → σ → Ret (Option GoError) × Tx × σ

/-- One run of `beginTx`: what it returned, the captured variables, the database
afterwards, the steps taken and the store functions the unit of work called. -/
structure TxRun (σ : Type) where
  ret : Ret (Option GoError)
  vars : σ
  db : DB
  steps : List Step
  calls : List Call
  deriving Repr

/-- The handle `conn.BeginTx` gives: a view of the durable tables. -/
def DB.begin (db : DB) : Tx :=
  ⟨db.users, db.posts, db.schema, db.draws, []⟩

/-- utils/db.go:
```go
func beginTx(db IDB, ctx context.Context, opts *sql.TxOptions, fn txFn) error {
	conn, err := db.Open()
	if err != nil { return err }
	tx, err := conn.BeginTx(ctx, opts)
	if err != nil { return err }
	err = fn(tx)
	if err != nil { return err }
	return tx.Commit()
}
```
The tables become durable only by a `Commit` that succeeds; the answers the server
has given are used up either way. -/
def beginTx {σ : Type} (db : DB) (fn : txFn σ) (vars : σ) : TxRun σ :=
  match db.openErr with
  | some err => ⟨.returned (some err), vars, db, [.Open], []⟩
  | none =>
    match db.beginErr with
    | some err => ⟨.returned (some err), vars, db, [.Open, .BeginTx], []⟩
    | none =>
      match fn db.begin vars with
      | (.panicked msg, tx, vars) =>
        ⟨.panicked msg, vars, { db with draws := tx.draws }, [.Open, .BeginTx, .fn], tx.calls⟩
      | (.returned (some err), tx, vars) =>
        ⟨.returned (some err), vars, { db with draws := tx.draws },
          [.Open, .BeginTx, .fn], tx.calls⟩
      | (.returned none, tx, vars) =>
        match db.commitErr with
        | some err =>
          ⟨.returned (some err), vars, { db with draws := tx.draws },
            [.Open, .BeginTx, .fn, .Commit], tx.calls⟩
        | none =>
          ⟨.returned none, vars,
            { db with users := tx.users, posts := tx.posts, draws := tx.draws },
            [.Open, .BeginTx, .fn, .Commit], tx.calls⟩

/-! ## The statements of handlers/users.go and handlers/posts.go

Each statement takes the next answer of the server. A statement that fails leaves the
tables as they were. -/

/-- The next answer of the server; a server with nothing scripted does not fail. -/
def Tx.draw (tx : Tx) : Draw × Tx :=
  match tx.draws with
  | [] => (Draw.quiet, tx)
  | d :: ds => (d, { tx with draws := ds })

/-- The handle once a store function has been called on it. -/
def Tx.called (tx : Tx) (c : Call) : Tx :=
  { tx with calls := tx.calls ++ [c] }

/-- Modelled from the spec: the identifier default of the tables (their declaration is
not among the sources): "generated by the store on creation", "non-nil". Uniqueness
is the primary key's: an `INSERT` whose identifier is taken fails. -/
def genId (d : Draw) : UUID := d.entropy + 1

/-- The error of the server for a row that breaks the primary key. -/
def errDuplicateKey : GoError :=
  .errorf "pq: duplicate key value violates unique constraint"

/-- The error of the server for a row that breaks `posts.user_id → users.id`. -/
def errForeignKey : GoError :=
  .errorf "pq: insert or update on table violates foreign key constraint"

/-- `tx.QueryRow(...).Scan(&dest...)`: the first row of the result set is copied into
`dest`; an empty result set is `sql.ErrNoRows`; a failed statement gives its error. -/
def Scan {α : Type} (dest : α) : Except GoError (List α) → α × Option GoError
  | .error err => (dest, some err)
  | .ok [] => (dest, some .ErrNoRows)
  | .ok (row :: _) => (row, none)

/-- `SELECT id, name, email, created_at, updated_at FROM users WHERE id=$1`. -/
def Tx.selectUser (tx : Tx) (id : UUID) : Except GoError (List User) × Tx :=
  let (d, tx) := tx.draw
  match d.fault with
  | some err => (.error err, tx)
  | none => (.ok (tx.users.filter (fun u => u.Id = id)), tx)

/-- `INSERT INTO users (name, email) VALUES ($1, $2) RETURNING id, name, email,
created_at, updated_at`: the identifier and `created_at` take their defaults and
`updated_at` is null (the defaults are the schema's, see `Schema` and `genId`). -/
def Tx.insertUser (tx : Tx) (name email : String) : Except GoError (List User) × Tx :=
  let (d, tx) := tx.draw
  match d.fault with
  | some err => (.error err, tx)
  | none =>
    let row : User := ⟨genId d, email, name, d.now, none⟩
    if tx.users.any (fun u => u.Id = row.Id) then (.error errDuplicateKey, tx)
    else (.ok [row], { tx with users := tx.users ++ [row] })

/-- The new values an `UPDATE users SET name=$1, email=$2` gives a row. -/
def User.set (sch : Schema) (now : Time) (name email : String) (u : User) : User :=
  { u with Name := name, Email := email,
           UpdatedAt := if sch.touchUpdatedAt then some now else u.UpdatedAt }

/-- `UPDATE users SET name=$1, email=$2 WHERE id=$3 RETURNING id, name, email,
created_at, updated_at`. -/
def Tx.updateUser (tx : Tx) (name email : String) (id : UUID) :
    Except GoError (List User) × Tx :=
  let (d, tx) := tx.draw
  match d.fault with
  | some err => (.error err, tx)
  | none =>
    let set := User.set tx.schema d.now name email
    (.ok ((tx.users.filter (fun u => u.Id = id)).map set),
      { tx with users := tx.users.map (fun u => if u.Id = id then set u else u) })

/-- `DELETE FROM users WHERE id=$1 RETURNING id, name, email, created_at, updated_at`.
A user that posts refer to is deleted with them when the schema cascades, and is not
deleted otherwise. -/
def Tx.deleteUser (tx : Tx) (id : UUID) : Except GoError (List User) × Tx :=
  let (d, tx) := tx.draw
  match d.fault with
  | some err => (.error err, tx)
  | none =>
    let hit := tx.users.filter (fun u => u.Id = id)
    if hit ≠ [] ∧ tx.posts.any (fun p => p.UserId = id) then
      if tx.schema.cascadeDelete then
        (.ok hit, { tx with users := tx.users.filter (fun u => u.Id ≠ id),
                            posts := tx.posts.filter (fun p => p.UserId ≠ id) })
      else (.error errForeignKey, tx)
    else (.ok hit, { tx with users := tx.users.filter (fun u => u.Id ≠ id) })

/-- `SELECT id, title, content, user_id, created_at, updated_at FROM posts WHERE id=$1`. -/
def Tx.selectPost (tx : Tx) (id : UUID) : Except GoError (List Post) × Tx :=
  let (d, tx) := tx.draw
  match d.fault with
  | some err => (.error err, tx)
  | none => (.ok (tx.posts.filter (fun p => p.Id = id)), tx)

/-- `INSERT INTO posts (title, content, user_id) VALUES ($1, $2, $3) RETURNING ...`. -/
def Tx.insertPost (tx : Tx) (title content : String) (userId : UUID) :
    Except GoError (List Post) × Tx :=
  let (d, tx) := tx.draw
  match d.fault with
  | some err => (.error err, tx)
  | none =>
    let row : Post := ⟨genId d, title, content, userId, d.now, none⟩
    if tx.posts.any (fun p => p.Id = row.Id) then (.error errDuplicateKey, tx)
    else if tx.users.any (fun u => u.Id = userId) then
      (.ok [row], { tx with posts := tx.posts ++ [row] })
    else (.error errForeignKey, tx)

/-- The new values an `UPDATE posts SET title=$1, content=$2, user_id=$3` gives a row. -/
def Post.set (sch : Schema) (now : Time) (title content : String) (userId : UUID)
    (p : Post) : Post :=
  { p with Title := title, Content := content, UserId := userId,
           UpdatedAt := if sch.touchUpdatedAt then some now else p.UpdatedAt }

/-- `UPDATE posts SET title=$1, content=$2, user_id=$3 WHERE id = $4 RETURNING ...`. -/
def Tx.updatePost (tx : Tx) (title content : String) (userId : UUID) (id : UUID) :
    Except GoError (List Post) × Tx :=
  let (d, tx) := tx.draw
  match d.fault with
  | some err => (.error err, tx)
  | none =>
    let set := Post.set tx.schema d.now title content userId
    let hit := tx.posts.filter (fun p => p.Id = id)
    if hit ≠ [] ∧ ¬ tx.users.any (fun u => u.Id = userId) then (.error errForeignKey, tx)
    else
      (.ok (hit.map set),
        { tx with posts := tx.posts.map (fun p => if p.Id = id then set p else p) })

/-- `DELETE FROM posts WHERE id=$1 RETURNING ...`. -/
def Tx.deletePost (tx : Tx) (id : UUID) : Except GoError (List Post) × Tx :=
  let (d, tx) := tx.draw
  match d.fault with
  | some err => (.error err, tx)
  | none =>
    (.ok (tx.posts.filter (fun p => p.Id = id)),
      { tx with posts := tx.posts.filter (fun p => p.Id ≠ id) })

/-- The cursor `*sql.Rows` of a multi-row query: what the successive `rows.Next()` /
`rows.Scan(...)` deliver until `rows.Next()` is false, and `rows.Err()` at that point. -/
structure Rows (α : Type) where
  items : List (Except GoError α)
  err : Option GoError
  deriving Repr

/-- The cursor over a result set, with the failures of the answer `d` applied. -/
def Rows.over {α : Type} (d : Draw) (rows : List α) : Rows α :=
  let items : List (Except GoError α) := rows.map Except.ok
  let items := match d.scanFail with
    | some (i, err) => items.set i (.error err)
    | none => items
  match d.nextFail with
  | some (i, err) => ⟨items.take i, some err⟩
  | none => ⟨items, none⟩

/-- `ORDER BY created_at DESC` on users. -/
def orderUsers (rows : List User) : List User :=
  rows.insertionSort (fun a b => b.CreatedAt ≤ a.CreatedAt)

/-- `ORDER BY created_at DESC` on posts. -/
def orderPosts (rows : List Post) : List Post :=
  rows.insertionSort (fun a b => b.CreatedAt ≤ a.CreatedAt)

/-- `tx.Query("SELECT id, name, email, created_at, updated_at FROM users ORDER BY
created_at DESC")`. -/
def Tx.queryUsers (tx : Tx) : Except GoError (Rows User) × Tx :=
  let (d, tx) := tx.draw
  match d.fault with
  | some err => (.error err, tx)
  | none => (.ok (Rows.over d (orderUsers tx.users)), tx)

/-- `tx.Query("SELECT id, title, content, user_id, created_at, updated_at FROM posts
ORDER BY created_at DESC")`. -/
def Tx.queryPosts (tx : Tx) : Except GoError (Rows Post) × Tx :=
  let (d, tx) := tx.draw
  match d.fault with
  | some err => (.error err, tx)
  | none => (.ok (Rows.over d (orderPosts tx.posts)), tx)

/-! ## handlers/users.go -/

/-- What the store functions return: `(*T, error)`. -/
abbrev Found (α : Type) := Option α × Option GoError

/-- The row scans below are `tx.QueryRow(s, args...).Scan(&dest...)`, the statement and
the copy of its first row; the store function is entered in the log of calls first. -/
abbrev Scanned (α : Type) := (α × Option GoError) × Tx

/-- The row scan of `UsersGetTx`: `tx.QueryRow(s, id).Scan(&user.Id, ...)`. -/
def UsersGetTx.scan (tx : Tx) (id : UUID) : (User × Option GoError) × Tx :=
  let (res, tx) := (tx.called .UsersGetTx).selectUser id
  (Scan User.zero res, tx)

/-- handlers/users.go:
```go
func UsersGetTx(tx *sql.Tx, id uuid.UUID) (*User, error) {
	user := User{}
	err := tx.QueryRow(s, id).Scan(&user.Id, &user.Name, &user.Email, &user.CreatedAt, &user.UpdatedAt)
	if err == sql.ErrNoRows { return nil, nil }
	return &user, err
}
``` -/
def UsersGetTx (tx : Tx) (id : UUID) : Found User × Tx :=
  let ((user, err), tx) := UsersGetTx.scan tx id
  if err = some .ErrNoRows then ((none, none), tx)
  else ((some user, err), tx)

/-- The row scan of `UsersCreateTx`. -/
def UsersCreateTx.scan (tx : Tx) (input : UserInput) : (User × Option GoError) × Tx :=
  let (res, tx) := (tx.called .UsersCreateTx).insertUser input.Name input.Email
  (Scan User.zero res, tx)

/-- handlers/users.go:
```go
func UsersCreateTx(tx *sql.Tx, input *UserInput) (*User, error) {
	user := &User{}
	err := tx.QueryRow(s, input.Name, input.Email).Scan(...)
	return user, err
}
```
`input.Name` panics on a nil `input`, before the statement is sent. -/
def UsersCreateTx (tx : Tx) (input : Option UserInput) : Ret (Found User) × Tx :=
  match input with
  | none => (.panicked nilDeref, tx.called .UsersCreateTx)
  | some input =>
    let ((user, err), tx) := UsersCreateTx.scan tx input
    (.returned (some user, err), tx)

/-- The row scan of `UsersUpdateTx`. -/
def UsersUpdateTx.scan (tx : Tx) (id : UUID) (input : UserInput) :
    (User × Option GoError) × Tx :=
  let (res, tx) := (tx.called .UsersUpdateTx).updateUser input.Name input.Email id
  (Scan User.zero res, tx)

/-- handlers/users.go:
```go
func UsersUpdateTx(tx *sql.Tx, id uuid.UUID, input *UserInput) (*User, error) {
	user := &User{}
	err := tx.QueryRow(s, input.Name, input.Email, id).Scan(...)
	if err == sql.ErrNoRows { return nil, nil }
	return user, err
}
``` -/
def UsersUpdateTx (tx : Tx) (id : UUID) (input : Option UserInput) : Ret (Found User) × Tx :=
  match input with
  | none => (.panicked nilDeref, tx.called .UsersUpdateTx)
  | some input =>
    let ((user, err), tx) := UsersUpdateTx.scan tx id input
    if err = some .ErrNoRows then (.returned (none, none), tx)
    else (.returned (some user, err), tx)

/-- The row scan of `UsersDeleteTx`. -/
def UsersDeleteTx.scan (tx : Tx) (id : UUID) : (User × Option GoError) × Tx :=
  let (res, tx) := (tx.called .UsersDeleteTx).deleteUser id
  (Scan User.zero res, tx)

/-- handlers/users.go:
```go
func UsersDeleteTx(tx *sql.Tx, id uuid.UUID) (*User, error) {
	user := &User{}
	err := tx.QueryRow(s, id).Scan(...)
	if err == sql.ErrNoRows { return nil, nil }
	return user, err
}
``` -/
def UsersDeleteTx (tx : Tx) (id : UUID) : Found User × Tx :=
  let ((user, err), tx) := UsersDeleteTx.scan tx id
  if err = some .ErrNoRows then ((none, none), tx)
  else ((some user, err), tx)

/-- The loop of `UsersGetAllTx` and `PostsGetAllTx`:
```go
for rows.Next() {
	user := User{}
	err := rows.Scan(...)
	if err != nil { return nil, err }
	users = append(users, &user)
}
return users, err
```
The `err` of the last line is the one of `tx.Query`, nil at that point: the `err` of the
loop body is a new variable, and `rows.Err()` is not read. -/
def scanRows {α : Type} : List (Except GoError α) → List α → Option (List α) × Option GoError
  | [], acc => (some acc, none)
  | .error err :: _, _ => (none, some err)
  | .ok row :: rest, acc => scanRows rest (acc ++ [row])

/-- handlers/users.go:
```go
func UsersGetAllTx(tx *sql.Tx) ([]*User, error) {
	rows, err := tx.Query(s)
	if err == sql.ErrNoRows { return nil, nil }
	if err != nil { return nil, err }
	defer rows.Close()
	users := []*User{}
	for rows.Next() { ... }
	return users, err
}
```
A nil slice is `none`, the empty slice `[]*User{}` is `some []`. -/
def UsersGetAllTx (tx : Tx) : (Option (List User) × Option GoError) × Tx :=
  match (tx.called .UsersGetAllTx).queryUsers with
  | (.error err, tx) =>
    if err = .ErrNoRows then ((none, none), tx) else ((none, some err), tx)
  | (.ok rows, tx) => (scanRows rows.items [], tx)

/-! ## handlers/posts.go -/

/-- The row scan of `PostsGetTx`. -/
def PostsGetTx.scan (tx : Tx) (id : UUID) : (Post × Option GoError) × Tx :=
  let (res, tx) := (tx.called .PostsGetTx).selectPost id
  (Scan Post.zero res, tx)

/-- handlers/posts.go `PostsGetTx`, the same shape as `UsersGetTx`. -/
def PostsGetTx (tx : Tx) (id : UUID) : Found Post × Tx :=
  let ((post, err), tx) := PostsGetTx.scan tx id
  if err = some .ErrNoRows then ((none, none), tx)
  else ((some post, err), tx)

/-- The row scan of `PostsCreateTx`. -/
def PostsCreateTx.scan (tx : Tx) (input : PostInput) : (Post × Option GoError) × Tx :=
  let (res, tx) := (tx.called .PostsCreateTx).insertPost input.Title input.Content input.UserId
  (Scan Post.zero res, tx)

/-- handlers/posts.go `PostsCreateTx`: `return post, err`, without a test for
`sql.ErrNoRows`. -/
def PostsCreateTx (tx : Tx) (input : Option PostInput) : Ret (Found Post) × Tx :=
  match input with
  | none => (.panicked nilDeref, tx.called .PostsCreateTx)
  | some input =>
    let ((post, err), tx) := PostsCreateTx.scan tx input
    (.returned (some post, err), tx)

/-- The row scan of `PostsUpdateTx`. -/
def PostsUpdateTx.scan (tx : Tx) (id : UUID) (input : PostInput) :
    (Post × Option GoError) × Tx :=
  let (res, tx) := (tx.called .PostsUpdateTx).updatePost input.Title input.Content input.UserId id
  (Scan Post.zero res, tx)

/-- handlers/posts.go `PostsUpdateTx`, the same shape as `UsersUpdateTx`. -/
def PostsUpdateTx (tx : Tx) (id : UUID) (input : Option PostInput) : Ret (Found Post) × Tx :=
  match input with
  | none => (.panicked nilDeref, tx.called .PostsUpdateTx)
  | some input =>
    let ((post, err), tx) := PostsUpdateTx.scan tx id input
    if err = some .ErrNoRows then (.returned (none, none), tx)
    else (.returned (some post, err), tx)

/-- The row scan of `PostsDeleteTx`. -/
def PostsDeleteTx.scan (tx : Tx) (id : UUID) : (Post × Option GoError) × Tx :=
  let (res, tx) := (tx.called .PostsDeleteTx).deletePost id
  (Scan Post.zero res, tx)

/-- handlers/posts.go `PostsDeleteTx`, the same shape as `UsersDeleteTx`. -/
def PostsDeleteTx (tx : Tx) (id : UUID) : Found Post × Tx :=
  let ((post, err), tx) := PostsDeleteTx.scan tx id
  if err = some .ErrNoRows then ((none, none), tx)
  else ((some post, err), tx)

/-- handlers/posts.go:
```go
func PostsGetAllTx(tx *sql.Tx) ([]*Post, error) {
	rows, err := tx.Query(s)
	if err != nil { return nil, err }
	defer rows.Close()
	posts := []*Post{}
	for rows.Next() { ... }
	return posts, err
}
``` -/
def PostsGetAllTx (tx : Tx) : (Option (List Post) × Option GoError) × Tx :=
  match (tx.called .PostsGetAllTx).queryPosts with
  | (.error err, tx) => ((none, some err), tx)
  | (.ok rows, tx) => (scanRows rows.items [], tx)

/-! ## handlers_users.go, handlers_posts.go

A handler is given what `uuid.Parse(params.ByName("id"))` and
`json.Unmarshal(body, &input)` return for the request: an error or an identifier,
an error or a pointer (nil for the JSON literal `null`). -/

/-- The outcome of `json.Unmarshal(body, &input)` for `var input *T`. -/
abbrev Decoded (α : Type) := Except GoError (Option α)

/-- One run of a handler: the `(result, error)` it returned or its panic, the database
afterwards, the steps of `beginTx` and the store functions called. -/
structure HandlerRun (T : Type) where
  ret : Ret (T × Option GoError)
  db : DB
  steps : List Step
  calls : List Call
  deriving Repr

/-- A handler that returns before `app.db.BeginTx`. -/
def HandlerRun.early {T : Type} (app : DB) (result : T) (err : GoError) : HandlerRun T :=
  ⟨.returned (result, some err), app, [], []⟩

/-- The end of every handler:
```go
if err != nil { return nil, err }
return user, nil
```
where `err` is what `app.db.BeginTx` returned and `user` the captured variable. -/
def HandlerRun.after {α : Type} (run : TxRun (Option α)) : HandlerRun (Option α) :=
  match run.ret with
  | .panicked msg => ⟨.panicked msg, run.db, run.steps, run.calls⟩
  | .returned (some err) => ⟨.returned (none, some err), run.db, run.steps, run.calls⟩
  | .returned none => ⟨.returned (run.vars, none), run.db, run.steps, run.calls⟩

/-- handlers_users.go `usersGetAll`: `users := []*handlers.User{}`, and the unit of work
```go
u, err := handlers.UsersGetAllTx(tx)
if err != nil { return err }
users = u
return nil
``` -/
def usersGetAll (app : DB) : HandlerRun (Option (List User)) :=
  HandlerRun.after (beginTx app (fun tx users =>
    match UsersGetAllTx tx with
    | ((_, some err), tx) => (.returned (some err), tx, users)
    | ((u, none), tx) => (.returned none, tx, u)) (some []))

/-- handlers_users.go `usersGet`:
```go
id, err := uuid.Parse(params.ByName("id"))
if err != nil { return nil, handlers.NewHTTPError(http.StatusBadRequest, err) }
err = app.db.BeginTx(ctx, &sql.TxOptions{}, func(tx *sql.Tx) error {
	u, err := handlers.UsersGetTx(tx, id)
	if err != nil { return err }
	if u == nil { return handlers.NewHTTPError(http.StatusNotFound, fmt.Errorf("user does not exist")) }
	user = u
	return nil
})
``` -/
def usersGet (app : DB) (id : Except GoError UUID) : HandlerRun (Option User) :=
  match id with
  | .error err => HandlerRun.early app none (NewHTTPError StatusBadRequest err)
  | .ok id =>
    HandlerRun.after (beginTx app (fun tx user =>
      match UsersGetTx tx id with
      | ((_, some err), tx) => (.returned (some err), tx, user)
      | ((none, none), tx) =>
        (.returned (some (NewHTTPError StatusNotFound (.errorf "user does not exist"))), tx, user)
      | ((some u, none), tx) => (.returned none, tx, some u)) none)

/-- handlers_users.go `usersCreate`:
```go
var input *handlers.UserInput
err := json.Unmarshal(body, &input)
if err != nil { return nil, handlers.NewHTTPError(http.StatusBadRequest, err) }
err = app.db.BeginTx(ctx, &sql.TxOptions{}, func(tx *sql.Tx) error {
	u, err := handlers.UsersCreateTx(tx, input)
	if err != nil { return err }
	user = u
	return nil
})
``` -/
def usersCreate (app : DB) (body : Decoded UserInput) : HandlerRun (Option User) :=
  match body with
  | .error err => HandlerRun.early app none (NewHTTPError StatusBadRequest err)
  | .ok input =>
    HandlerRun.after (beginTx app (fun tx user =>
      match UsersCreateTx tx input with
      | (.panicked msg, tx) => (.panicked msg, tx, user)
      | (.returned (_, some err), tx) => (.returned (some err), tx, user)
      | (.returned (u, none), tx) => (.returned none, tx, u)) none)

/-- handlers_users.go `usersUpdate`: the body is decoded first, then the identifier is
parsed; the unit of work is
```go
u, err := handlers.UsersUpdateTx(tx, id, input)
if err != nil { return err }
if u == nil { return handlers.NewHTTPError(http.StatusNotFound, fmt.Errorf("user does not exist")) }
user = u
return nil
``` -/
def usersUpdate (app : DB) (id : Except GoError UUID) (body : Decoded UserInput) :
    HandlerRun (Option User) :=
  match body with
  | .error err => HandlerRun.early app none (NewHTTPError StatusBadRequest err)
  | .ok input =>
    match id with
    | .error err => HandlerRun.early app none (NewHTTPError StatusBadRequest err)
    | .ok id =>
      HandlerRun.after (beginTx app (fun tx user =>
        match UsersUpdateTx tx id input with
        | (.panicked msg, tx) => (.panicked msg, tx, user)
        | (.returned (_, some err), tx) => (.returned (some err), tx, user)
        | (.returned (none, none), tx) =>
          (.returned (some (NewHTTPError StatusNotFound (.errorf "user does not exist"))),
            tx, user)
        | (.returned (some u, none), tx) => (.returned none, tx, some u)) none)

/-- handlers_users.go `usersDelete`: as `usersGet`, with `handlers.UsersDeleteTx`. -/
def usersDelete (app : DB) (id : Except GoError UUID) : HandlerRun (Option User) :=
  match id with
  | .error err => HandlerRun.early app none (NewHTTPError StatusBadRequest err)
  | .ok id =>
    HandlerRun.after (beginTx app (fun tx user =>
      match UsersDeleteTx tx id with
      | ((_, some err), tx) => (.returned (some err), tx, user)
      | ((none, none), tx) =>
        (.returned (some (NewHTTPError StatusNotFound (.errorf "user does not exist"))), tx, user)
      | ((some u, none), tx) => (.returned none, tx, some u)) none)

/-- handlers_posts.go `postsGetAll`, as `usersGetAll`. -/
def postsGetAll (app : DB) : HandlerRun (Option (List Post)) :=
  HandlerRun.after (beginTx app (fun tx posts =>
    match PostsGetAllTx tx with
    | ((_, some err), tx) => (.returned (some err), tx, posts)
    | ((u, none), tx) => (.returned none, tx, u)) (some []))

/-- handlers_posts.go `postsGet`:
```go
id, err := uuid.Parse(params.ByName("id"))
if err != nil { return nil, handlers.NewHTTPError(http.StatusBadRequest, err) }
err = app.db.BeginTx(ctx, &sql.TxOptions{}, func(tx *sql.Tx) error {
	u, err := handlers.PostsGetTx(tx, id)
	if err != nil { return err }
	post = u
	return nil
})
```
The unit of work has no `if u == nil` test. -/
def postsGet (app : DB) (id : Except GoError UUID) : HandlerRun (Option Post) :=
  match id with
  | .error err => HandlerRun.early app none (NewHTTPError StatusBadRequest err)
  | .ok id =>
    HandlerRun.after (beginTx app (fun tx post =>
      match PostsGetTx tx id with
      | ((_, some err), tx) => (.returned (some err), tx, post)
      | ((u, none), tx) => (.returned none, tx, u)) none)

/-- handlers_posts.go `postsCreate`; the unit of work is
```go
u, err := handlers.UsersGetTx(tx, input.UserId)
if err != nil { return err }
if u == nil { return handlers.NewHTTPError(http.StatusBadRequest, fmt.Errorf("user does not exist")) }
p, err := handlers.PostsCreateTx(tx, input)
if err != nil { return err }
post = p
return nil
```
`input.UserId` panics on a nil `input`. -/
def postsCreate (app : DB) (body : Decoded PostInput) : HandlerRun (Option Post) :=
  match body with
  | .error err => HandlerRun.early app none (NewHTTPError StatusBadRequest err)
  | .ok input =>
    HandlerRun.after (beginTx app (fun tx post =>
      match input with
      | none => (.panicked nilDeref, tx, post)
      | some inp =>
        match UsersGetTx tx inp.UserId with
        | ((_, some err), tx) => (.returned (some err), tx, post)
        | ((none, none), tx) =>
          (.returned (some (NewHTTPError StatusBadRequest (.errorf "user does not exist"))),
            tx, post)
        | ((some _, none), tx) =>
          match PostsCreateTx tx input with
          | (.panicked msg, tx) => (.panicked msg, tx, post)
          | (.returned (_, some err), tx) => (.returned (some err), tx, post)
          | (.returned (p, none), tx) => (.returned none, tx, p)) none)

/-- handlers_posts.go `postsUpdate`; the unit of work is
```go
u, err := handlers.UsersGetTx(tx, input.UserId)
if err != nil { return err }
if u == nil { return handlers.NewHTTPError(http.StatusBadRequest, fmt.Errorf("user does not exist")) }
p, err := handlers.PostsUpdateTx(tx, id, input)
if err != nil { return err }
if p == nil { return handlers.NewHTTPError(http.StatusNotFound, fmt.Errorf("post does not exist")) }
post = p
return nil
``` -/
def postsUpdate (app : DB) (id : Except GoError UUID) (body : Decoded PostInput) :
    HandlerRun (Option Post) :=
  match body with
  | .error err => HandlerRun.early app none (NewHTTPError StatusBadRequest err)
  | .ok input =>
    match id with
    | .error err => HandlerRun.early app none (NewHTTPError StatusBadRequest err)
    | .ok id =>
      HandlerRun.after (beginTx app (fun tx post =>
        match input with
        | none => (.panicked nilDeref, tx, post)
        | some inp =>
          match UsersGetTx tx inp.UserId with
          | ((_, some err), tx) => (.returned (some err), tx, post)
          | ((none, none), tx) =>
            (.returned (some (NewHTTPError StatusBadRequest (.errorf "user does not exist"))),
              tx, post)
          | ((some _, none), tx) =>
            match PostsUpdateTx tx id input with
            | (.panicked msg, tx) => (.panicked msg, tx, post)
            | (.returned (_, some err), tx) => (.returned (some err), tx, post)
            | (.returned (none, none), tx) =>
              (.returned (some (NewHTTPError StatusNotFound (.errorf "post does not exist"))),
                tx, post)
            | (.returned (some p, none), tx) => (.returned none, tx, some p)) none)

/-- handlers_posts.go `postsDelete`:
```go
id, err := uuid.Parse(params.ByName("id"))
if err != nil { return nil, handlers.NewHTTPError(http.StatusNotFound, fmt.Errorf("post does not exist")) }
```
and then as `usersDelete`, with `handlers.PostsDeleteTx` and "post does not exist". -/
def postsDelete (app : DB) (id : Except GoError UUID) : HandlerRun (Option Post) :=
  match id with
  | .error _ =>
    HandlerRun.early app none (NewHTTPError StatusNotFound (.errorf "post does not exist"))
  | .ok id =>
    HandlerRun.after (beginTx app (fun tx post =>
      match PostsDeleteTx tx id with
      | ((_, some err), tx) => (.returned (some err), tx, post)
      | ((none, none), tx) =>
        (.returned (some (NewHTTPError StatusNotFound (.errorf "post does not exist"))), tx, post)
      | ((some p, none), tx) => (.returned none, tx, some p)) none)

/-! ## middleware.go -/

/-- What the dispatch wrapper writes to the `http.ResponseWriter`, by the helper that
writes it: `app.errorMessage(w, r, status, message, nil)`, `app.serverError(w, r, err)`,
`app.notFound(w, r)`, `response.JSON(w, status, data)` and `http.Error(w, text, code)`. -/
inductive Write (T : Type) where
  | errorMessage (status : Int) (message : String)
  | serverError (err : GoError)
  | notFound
  | JSON (status : Int) (data : T)
  | Error (text : String) (code : Int)
  deriving DecidableEq, Repr

/-- Modelled from the spec: `app.errorMessage`, `app.serverError`, `app.notFound` and
`response.JSON` are not among the sources. By the spec a classified error is written
with "that status and message", an unclassified one with "a generic server-error
status", an absent result is "not found (status 404)", and a result is serialised
"as JSON with status 200"; `http.Error(w, text, code)` is the standard library's. -/
def Write.status {T : Type} : Write T → Int
  | .errorMessage status _ => status
  | .serverError _ => StatusInternalServerError
  | .notFound => StatusNotFound
  | .JSON status _ => status
  | .Error _ code => code

/-- How serving one request ends: the writes to the response, in order, or the end of
the process (a panic in the goroutine of the handler, which has no `recover`). -/
inductive Served (T : Type) where
  | wrote (ws : List (Write T))
  | crashed (msg : String)
  deriving DecidableEq, Repr

/-- The tail of both wrappers:
```go
err = response.JSON(w, http.StatusOK, result)
if err != nil {
	app.serverError(w, r, err)
	return
}
```
`jsonErr` is the error `response.JSON` returns for a result (nil when it has written
the result). -/
def writeJSON {T : Type} (jsonErr : T → Option GoError) (result : T) : List (Write T) :=
  match jsonErr result with
  | some err => [.serverError err]
  | none => [.JSON StatusOK result]

/-- The branch both wrappers take on a non-nil error:
```go
if httpErr, ok := err.(*handlers.HTTPError); ok {
	app.errorMessage(w, r, httpErr.Code, httpErr.Message.Error(), nil)
} else {
	app.serverError(w, r, err)
}
return
``` -/
def writeError {T : Type} (err : GoError) : List (Write T) :=
  match err.asHTTPError with
  | some (code, message) => [.errorMessage code message.Error]
  | none => [.serverError err]

/-- middleware.go `handleQuery`: the handler runs in a goroutine of its own and the
wrapper selects between `ctx.Done()` and `done`; `cancelled` says that the select took
`ctx.Done()`.
```go
select {
case <-ctx.Done():
	return
case <-done:
	if err != nil { ... return }
	err = response.JSON(w, http.StatusOK, result)
	...
}
``` -/
def handleQuery {P T : Type} (jsonErr : T → Option GoError)
    (handler : P → Ret (T × Option GoError)) (cancelled : Bool) (p : P) : Served T :=
  match handler p with
  | .panicked msg => .crashed msg
  | .returned (result, err) =>
    if cancelled then .wrote []
    else
      match err with
      | some err => .wrote (writeError err)
      | none => .wrote (writeJSON jsonErr result)

/-- middleware.go `handleMutation`: the body is read first,
```go
body, err := io.ReadAll(r.Body)
if err != nil {
	http.Error(w, "Error reading request body", http.StatusBadRequest)
	return
}
```
then as `handleQuery`, with one more test before the result is written:
```go
if result == nil {
	app.notFound(w, r)
	return
}
``` -/
def handleMutation {P B T : Type} (jsonErr : Option T → Option GoError)
    (handler : P → B → Ret (Option T × Option GoError)) (cancelled : Bool) (p : P)
    (body : Except GoError B) : Served (Option T) :=
  match body with
  | .error _ => .wrote [.Error "Error reading request body" StatusBadRequest]
  | .ok body =>
    match handler p body with
    | .panicked msg => .crashed msg
    | .returned (result, err) =>
      if cancelled then .wrote []
      else
        match err with
        | some err => .wrote (writeError err)
        | none =>
          match result with
          | none => .wrote [.notFound]
          | some _ => .wrote (writeJSON jsonErr result)

/-- middleware.go `recoverPanic`:
```go
defer func() {
	err := recover()
	if err != nil {
		app.serverError(w, r, fmt.Errorf("%s", err))
	}
}()
next.ServeHTTP(w, r)
```
`next` is what `next.ServeHTTP(w, r)` does on the goroutine of the request: it returns,
with what has been served, or it panics there. A panic in another goroutine is not
seen by this `recover`: it ends the process (`Served.crashed`). -/
def recoverPanic {T : Type} (next : Ret (Served T)) : Served T :=
  match next with
  | .panicked msg => .wrote [.serverError (.errorf msg)]
  | .returned served => served

/-! ## routes.go

A request reaches a route as what `uuid.Parse` makes of its `id` parameter and what
`json.Unmarshal` makes of its body. -/

/-- `mux.GET("/api/users/:id", handleQuery(app, app.usersGet))`. -/
def GET_users_id (jsonErr : Option User → Option GoError) (app : DB) (cancelled : Bool)
    (id : Except GoError UUID) : Served (Option User) :=
  handleQuery jsonErr (fun id => (usersGet app id).ret) cancelled id

/-- `mux.DELETE("/api/users/:id", handleQuery(app, app.usersDelete))`. -/
def DELETE_users_id (jsonErr : Option User → Option GoError) (app : DB) (cancelled : Bool)
    (id : Except GoError UUID) : Served (Option User) :=
  handleQuery jsonErr (fun id => (usersDelete app id).ret) cancelled id

/-- `mux.PUT("/api/users/:id", handleMutation(app, app.usersUpdate))`. -/
def PUT_users_id (jsonErr : Option User → Option GoError) (app : DB) (cancelled : Bool)
    (id : Except GoError UUID) (body : Except GoError (Decoded UserInput)) :
    Served (Option User) :=
  handleMutation jsonErr (fun id body => (usersUpdate app id body).ret) cancelled id body

/-- `mux.POST("/api/users", handleMutation(app, app.usersCreate))`. -/
def POST_users (jsonErr : Option User → Option GoError) (app : DB) (cancelled : Bool)
    (body : Except GoError (Decoded UserInput)) : Served (Option User) :=
  handleMutation jsonErr (fun (_ : Unit) body => (usersCreate app body).ret) cancelled () body

/-- `mux.GET("/api/posts/:id", handleQuery(app, app.postsGet))`. -/
def GET_posts_id (jsonErr : Option Post → Option GoError) (app : DB) (cancelled : Bool)
    (id : Except GoError UUID) : Served (Option Post) :=
  handleQuery jsonErr (fun id => (postsGet app id).ret) cancelled id

/-- `mux.DELETE("/api/posts/:id", handleQuery(app, app.postsDelete))`. -/
def DELETE_posts_id (jsonErr : Option Post → Option GoError) (app : DB) (cancelled : Bool)
    (id : Except GoError UUID) : Served (Option Post) :=
  handleQuery jsonErr (fun id => (postsDelete app id).ret) cancelled id

/-- `mux.PUT("/api/posts/:id", handleMutation(app, app.postsUpdate))`. -/
def PUT_posts_id (jsonErr : Option Post → Option GoError) (app : DB) (cancelled : Bool)
    (id : Except GoError UUID) (body : Except GoError (Decoded PostInput)) :
    Served (Option Post) :=
  handleMutation jsonErr (fun id body => (postsUpdate app id body).ret) cancelled id body

/-- `mux.POST("/api/posts", handleMutation(app, app.postsCreate))`. -/
def POST_posts (jsonErr : Option Post → Option GoError) (app : DB) (cancelled : Bool)
    (body : Except GoError (Decoded PostInput)) : Served (Option Post) :=
  handleMutation jsonErr (fun (_ : Unit) body => (postsCreate app body).ret) cancelled () body

/-! ## The fixture of utils/db.go (`TestNewDB`, `TestDB.Open`) -/

/-- `Fixture.UserId1`, "4a2b9c10-9daf-11ed-93ce-0242ac120001". -/
def UserId1 : UUID := 0x4a2b9c109daf11ed93ce0242ac120001
/-- `Fixture.UserId2`, "4a2b9c10-9daf-11ed-93ce-0242ac120002". -/
def UserId2 : UUID := 0x4a2b9c109daf11ed93ce0242ac120002
/-- `Fixture.PostId1`, "4a2b9c10-9daf-11ed-93ce-0242ac220001". -/
def PostId1 : UUID := 0x4a2b9c109daf11ed93ce0242ac220001
/-- `Fixture.PostId2`, "4a2b9c10-9daf-11ed-93ce-0242ac220002". -/
def PostId2 : UUID := 0x4a2b9c109daf11ed93ce0242ac220002
/-- The identifier the tests use for a row that does not exist,
"4a2b9c00-9daf-11ed-93ce-0242ac120001". -/
def missingId : UUID := 0x4a2b9c009daf11ed93ce0242ac120001

/-- The tables after the four `INSERT`s of `TestDB.Open`, in a database that does not
fail; the rows were created at the instants 1 to 4. The schema has no trigger on
`updated_at` and cascades the deletion of a user (`TestUsersDeleteTx` deletes a user
that a post refers to and expects no error). -/
def fixtureDB : DB :=
  { openErr := none, beginErr := none, commitErr := none,
    users := [⟨UserId1, "email-1", "user-1", 1, none⟩, ⟨UserId2, "email-2", "user-2", 2, none⟩],
    posts := [⟨PostId1, "title-1", "content-1", UserId1, 3, none⟩,
              ⟨PostId2, "title-2", "content-2", UserId2, 4, none⟩],
    schema := ⟨false, true⟩,
    draws := [] }

/-- The value `beginTx` returns, step by step: the error of `Open`, else the error of
`conn.BeginTx`, else what the unit of work returned when that is not nil (or its
panic), else the result of `tx.Commit`. -/
def firstFailure {σ : Type} (db : DB) (fn : txFn σ) (vars : σ) : Ret (Option GoError) :=
  match db.openErr with
  | some err => .returned (some err)
  | none =>
    match db.beginErr with
    | some err => .returned (some err)
    | none =>
      match (fn db.begin vars).1 with
      | .panicked msg => .panicked msg
      | .returned (some err) => .returned (some err)
      | .returned none => .returned db.commitErr

/-- The database calls of a run up to the unit of work do not fail: `Open` and
`conn.BeginTx` succeed and no statement is answered by a failure. -/
def DB.healthy (db : DB) : Prop :=
  db.openErr = none ∧ db.beginErr = none ∧ ∀ d ∈ db.draws, d.fault = none

/-- No statement sent on the handle is answered by a failure. -/
def Tx.healthy (tx : Tx) : Prop :=
  ∀ d ∈ tx.draws, d.fault = none

/-- The contract of a by-identifier store function on the handle `tx`, for the table
`table` with identifiers `key`, `scan` being its row scan and `out` what it returned:
when no row has the identifier and the statement is not answered by a failure, it
returns `(nil, nil)` and both tables are as before; it returns a non-nil error exactly
when the row scan failed with an error other than `sql.ErrNoRows`; and when the row
scan succeeded, a row had the identifier and the function returns a non-nil entity
with that identifier and a nil error. -/
def StoreContract {α : Type} (key : α → UUID) (table : List α) (id : UUID) (tx : Tx)
    (scan : Scanned α) (out : Found α × Tx) : Prop :=
  ((∀ r ∈ table, key r ≠ id) → tx.draw.1.fault = none →
    out.1 = (none, none) ∧ out.2.users = tx.users ∧ out.2.posts = tx.posts) ∧
  (out.1.2 ≠ none ↔ ∃ e, scan.1.2 = some e ∧ e ≠ GoError.ErrNoRows) ∧
  (scan.1.2 = none →
    (∃ r ∈ table, key r = id) ∧ ∃ e, out.1 = (some e, none) ∧ key e = id)

/-- The answer to a multi-row query that does not fail: the statement is not answered
by a failure, no `rows.Scan` fails and `rows.Next` does not stop with a pending error. -/
def Draw.clean (d : Draw) : Prop :=
  d.fault = none ∧ d.scanFail = none ∧ d.nextFail = none

/-- Non-increasing order of `created_at` on users. -/
def User.newerFirst (a b : User) : Prop := b.CreatedAt ≤ a.CreatedAt

/-- Non-increasing order of `created_at` on posts. -/
def Post.newerFirst (a b : Post) : Prop := b.CreatedAt ≤ a.CreatedAt

/-- A run that ended in the validation of the request: the handler returned a nil
result and `*HTTPError{400, err}`, `app.db.BeginTx` was not called (no step of `beginTx`
was taken, no store function was called) and the database is as it was. -/
def HandlerRun.rejected {T : Type} (run : HandlerRun (Option T)) (app : DB) (err : GoError) :
    Prop :=
  run.ret = .returned (none, some (GoError.HTTPError 400 err)) ∧
  run.steps = [] ∧ run.calls = [] ∧ run.db = app

/-- The writes to the response of a served request; none are recorded for a process
that has ended. -/
def Served.writes {T : Type} : Served T → List (Write T)
  | .wrote ws => ws
  | .crashed _ => []

/-- An outcome `(result, error)` of a handler has exactly one of the two non-nil: when
the handler returns, the result is non-nil if and only if the error is nil. -/
def exclusive {T : Type} (ret : Ret (Option T × Option GoError)) : Prop :=
  ∀ result err, ret = .returned (result, err) → (result ≠ none ↔ err = none)

/-! # Properties -/

/-! ## The transaction runner -/

/-- C1: in every run of `beginTx`, `tx.Commit` is among the steps taken if and only if
`Open` succeeded, `conn.BeginTx` succeeded and the unit of work returned nil; and
whenever the unit of work returns a non-nil error, `Commit` is not among the steps and
the durable tables are the ones before the run. -/
theorem beginTx_commit_iff {σ : Type} (db : DB) (fn : txFn σ) (vars : σ) :
    (Step.Commit ∈ (beginTx db fn vars).steps ↔
      db.openErr = none ∧ db.beginErr = none ∧ (fn db.begin vars).1 = .returned none) ∧
    (∀ err, (fn db.begin vars).1 = .returned (some err) →
      Step.Commit ∉ (beginTx db fn vars).steps ∧
      (beginTx db fn vars).db.users = db.users ∧
      (beginTx db fn vars).db.posts = db.posts) := by
  unfold beginTx
  cases ho : db.openErr with
  | some e => simp
  | none =>
    cases hb : db.beginErr with
    | some e => simp
    | none =>
      rcases hf : fn db.begin vars with ⟨r, tx, vars1⟩
      cases r with
      | panicked msg => simp
      | returned v =>
        cases v with
        | some e => simp
        | none => cases hc : db.commitErr <;> simp

/-- C2: `beginTx` returns exactly the error of the first failing step, unchanged: the
error of `Open`, else that of `conn.BeginTx`, else the error value the unit of work
returned (a `*HTTPError` with code `c` and message `m` comes back as that same
value), else the result of `Commit`. The unit of work is not invoked when `Open` or
`conn.BeginTx` fails, and is invoked at most once in any run. -/
theorem beginTx_returns_first_failure {σ : Type} (db : DB) (fn : txFn σ) (vars : σ) :
    (beginTx db fn vars).ret = firstFailure db fn vars ∧
    (∀ err, db.openErr = some err →
      (beginTx db fn vars).ret = .returned (some err) ∧
      Step.fn ∉ (beginTx db fn vars).steps) ∧
    (∀ err, db.openErr = none → db.beginErr = some err →
      (beginTx db fn vars).ret = .returned (some err) ∧
      Step.fn ∉ (beginTx db fn vars).steps) ∧
    (∀ c m, db.openErr = none → db.beginErr = none →
      (fn db.begin vars).1 = .returned (some (GoError.HTTPError c m)) →
      (beginTx db fn vars).ret = .returned (some (GoError.HTTPError c m))) ∧
    (db.openErr = none → db.beginErr = none → (fn db.begin vars).1 = .returned none →
      (beginTx db fn vars).ret = .returned db.commitErr) ∧
    (beginTx db fn vars).steps.count Step.fn ≤ 1 := by
  unfold beginTx firstFailure
  cases ho : db.openErr with
  | some e => simp
  | none =>
    cases hb : db.beginErr with
    | some e => simp
    | none =>
      rcases hf : fn db.begin vars with ⟨r, tx, vars1⟩
      cases r with
      | panicked msg => simp
      | returned v =>
        cases v with
        | some e => simp
        | none => cases hc : db.commitErr <;> simp

/-! ## The foreign-key guard -/

theorem filter_id_eq_nil {α : Type} (key : α → UUID) (rows : List α) (id : UUID)
    (h : ∀ r ∈ rows, key r ≠ id) : rows.filter (fun r => key r = id) = [] := by
  simp only [List.filter_eq_nil_iff, decide_eq_true_eq]
  exact h

/-- C3: for a decoded `PostInput` whose `user_id` matches no row of `users`, and any
post identifier, `postsCreate` and `postsUpdate` return `(nil, *HTTPError{400, "user
does not exist"})` when the database calls do not fail; and in every run, failing or
not, they do not call `PostsCreateTx` / `PostsUpdateTx`, do not commit, and leave the
durable `posts` (and `users`) tables as they were. -/
theorem posts_foreign_key_guard (app : DB) (id : UUID) (input : PostInput)
    (hno : ∀ u ∈ app.users, u.Id ≠ input.UserId) :
    (app.healthy →
      (postsCreate app (.ok (some input))).ret =
        .returned (none, some (GoError.HTTPError 400 (.errorf "user does not exist"))) ∧
      (postsUpdate app (.ok id) (.ok (some input))).ret =
        .returned (none, some (GoError.HTTPError 400 (.errorf "user does not exist")))) ∧
    (Call.PostsCreateTx ∉ (postsCreate app (.ok (some input))).calls ∧
      Step.Commit ∉ (postsCreate app (.ok (some input))).steps ∧
      (postsCreate app (.ok (some input))).db.posts = app.posts ∧
      (postsCreate app (.ok (some input))).db.users = app.users) ∧
    (Call.PostsUpdateTx ∉ (postsUpdate app (.ok id) (.ok (some input))).calls ∧
      Step.Commit ∉ (postsUpdate app (.ok id) (.ok (some input))).steps ∧
      (postsUpdate app (.ok id) (.ok (some input))).db.posts = app.posts ∧
      (postsUpdate app (.ok id) (.ok (some input))).db.users = app.users) := by
  have hnil := filter_id_eq_nil User.Id app.users input.UserId hno
  simp only [DB.healthy, postsCreate, postsUpdate, beginTx, HandlerRun.after, UsersGetTx,
    UsersGetTx.scan, Tx.selectUser, Tx.draw, Tx.called, DB.begin]
  cases ho : app.openErr with
  | some e => simp
  | none =>
    cases hb : app.beginErr with
    | some e => simp
    | none =>
      cases hd : app.draws with
      | nil => simp [Draw.quiet, hnil, Scan, NewHTTPError, StatusBadRequest]
      | cons d ds =>
        cases hf : d.fault with
        | none => simp [hnil, Scan, NewHTTPError, StatusBadRequest, hf]
        | some e =>
          by_cases he : e = GoError.ErrNoRows
          · simp [Scan, NewHTTPError, StatusBadRequest, hf, he]
          · simp [Scan, NewHTTPError, StatusBadRequest, hf, he]

/-- C3 at the fixture of the tests ("Create post on non existing user"): the 400 is
returned and the posts are untouched. -/
theorem posts_foreign_key_guard_witness :
    (∀ u ∈ fixtureDB.users, u.Id ≠ missingId) ∧
    (postsCreate fixtureDB (.ok (some ⟨"one", "1", missingId⟩))).ret =
      .returned (none, some (GoError.HTTPError 400 (.errorf "user does not exist"))) ∧
    (postsUpdate fixtureDB (.ok PostId2) (.ok (some ⟨"one", "1", missingId⟩))).db.posts =
      fixtureDB.posts :=
  have hno : ∀ u ∈ fixtureDB.users, u.Id ≠ (PostInput.mk "one" "1" missingId).UserId := by
    decide
  have hh : fixtureDB.healthy := by simp [DB.healthy, fixtureDB]
  ⟨hno, ((posts_foreign_key_guard fixtureDB PostId2 ⟨"one", "1", missingId⟩ hno).1 hh).1,
    (posts_foreign_key_guard fixtureDB PostId2 ⟨"one", "1", missingId⟩ hno).2.2.2.2.1⟩

/-! ## The dispatch wrapper -/

/-- C4: when the select takes `done`, the response of `handleQuery` and of
`handleMutation` is determined by the outcome of the handler: an error that is a
`*HTTPError` with code `c` and message `m` is written by `errorMessage` with status `c`
and the text of `m`; any other non-nil error is written by `serverError`, whose status
is 500 whatever the error; a nil error (with a non-nil result, for `handleMutation`)
is written as JSON with status 200 once `response.JSON` succeeds. Two handlers with the
same outcome get the same response. -/
theorem dispatch_response_of_outcome {P B T : Type} (jq : T → Option GoError)
    (jm : Option T → Option GoError) (hq : P → Ret (T × Option GoError))
    (hm : P → B → Ret (Option T × Option GoError)) (p : P) (body : B) :
    (∀ r c m, hq p = .returned (r, some (.HTTPError c m)) →
      handleQuery jq hq false p = .wrote [.errorMessage c m.Error]) ∧
    (∀ r c m, hm p body = .returned (r, some (.HTTPError c m)) →
      handleMutation jm hm false p (.ok body) = .wrote [.errorMessage c m.Error]) ∧
    (∀ c text, (Write.errorMessage c text : Write T).status = c) ∧
    (∀ r e, e.asHTTPError = none → hq p = .returned (r, some e) →
      handleQuery jq hq false p = .wrote [.serverError e]) ∧
    (∀ r e, e.asHTTPError = none → hm p body = .returned (r, some e) →
      handleMutation jm hm false p (.ok body) = .wrote [.serverError e]) ∧
    (∀ e, (Write.serverError e : Write T).status = 500) ∧
    (∀ r, hq p = .returned (r, none) → jq r = none →
      handleQuery jq hq false p = .wrote [.JSON 200 r]) ∧
    (∀ r, hm p body = .returned (some r, none) → jm (some r) = none →
      handleMutation jm hm false p (.ok body) = .wrote [.JSON 200 (some r)]) ∧
    (∀ d, (Write.JSON 200 d : Write T).status = 200) ∧
    (∀ (hq2 : P → Ret (T × Option GoError)) p2, hq2 p2 = hq p →
      handleQuery jq hq2 false p2 = handleQuery jq hq false p) ∧
    (∀ (hm2 : P → B → Ret (Option T × Option GoError)) p2 body2, hm2 p2 body2 = hm p body →
      handleMutation jm hm2 false p2 (.ok body2) = handleMutation jm hm false p (.ok body)) := by
  refine ⟨?_, ?_, ?_, ?_, ?_, ?_, ?_, ?_, ?_, ?_, ?_⟩
  · intro r c m h
    simp [handleQuery, h, writeError, GoError.asHTTPError]
  · intro r c m h
    simp [handleMutation, h, writeError, GoError.asHTTPError]
  · intro c text
    rfl
  · intro r e he h
    simp [handleQuery, h, writeError, he]
  · intro r e he h
    simp [handleMutation, h, writeError, he]
  · intro e
    rfl
  · intro r h hj
    simp [handleQuery, h, writeJSON, hj, StatusOK]
  · intro r h hj
    simp [handleMutation, h, writeJSON, hj, StatusOK]
  · intro d
    rfl
  · intro hq2 p2 h
    simp [handleQuery, h]
  · intro hm2 p2 body2 h
    simp [handleMutation, h]

/-- C5: in `handleMutation` a handler outcome with a nil error and a nil result is
answered by `notFound` (status 404) and nothing else, so no JSON with status 200 is
written; in `handleQuery` the same outcome goes to `response.JSON`, which writes the
nil result with status 200, and `notFound` is not written. -/
theorem mutation_nil_result_is_not_found {P B T : Type} (jm jq : Option T → Option GoError)
    (hm : P → B → Ret (Option T × Option GoError)) (hq : P → Ret (Option T × Option GoError))
    (p : P) (body : B) :
    (hm p body = .returned (none, none) →
      handleMutation jm hm false p (.ok body) = .wrote [.notFound] ∧
      (Write.notFound : Write (Option T)).status = 404 ∧
      ∀ d, Write.JSON 200 d ∉ [(Write.notFound : Write (Option T))]) ∧
    (hq p = .returned (none, none) →
      handleQuery jq hq false p = .wrote (writeJSON jq none) ∧
      Write.notFound ∉ writeJSON jq none ∧
      (jq none = none → handleQuery jq hq false p = .wrote [.JSON 200 none])) := by
  constructor
  · intro h
    refine ⟨by simp [handleMutation, h], rfl, by simp⟩
  · intro h
    refine ⟨by simp [handleQuery, h], ?_, ?_⟩
    · unfold writeJSON
      cases jq none <;> simp
    · intro hj
      simp [handleQuery, h, writeJSON, hj, StatusOK]

/-- C4 and C5 on a handler that returns `(nil, nil)`: `handleMutation` answers with
`notFound`. -/
theorem mutation_nil_result_is_not_found_witness :
    handleMutation (fun _ => none)
      (fun (_ : Unit) (_ : Unit) => Ret.returned ((none : Option User), none)) false ()
      (.ok ()) = .wrote [.notFound] :=
  ((mutation_nil_result_is_not_found (fun _ => none) (fun _ => none)
    (fun (_ : Unit) (_ : Unit) => Ret.returned ((none : Option User), none))
    (fun (_ : Unit) => Ret.returned ((none : Option User), none)) () ()).1 rfl).1

/-- C4 on a handler that returns a classified error: the status written is its code. -/
theorem dispatch_response_of_outcome_witness :
    handleQuery (fun _ => none)
      (fun (_ : Unit) => Ret.returned ((none : Option User),
        some (GoError.HTTPError 404 (.errorf "user does not exist")))) false () =
      .wrote [.errorMessage 404 "user does not exist"] :=
  (dispatch_response_of_outcome (fun _ => none) (fun _ => none)
    (fun (_ : Unit) => Ret.returned ((none : Option User),
      some (GoError.HTTPError 404 (.errorf "user does not exist"))))
    (fun (_ : Unit) (_ : Unit) => Ret.returned ((none : Option User), none)) () ()).1
    none 404 (.errorf "user does not exist") rfl

/-! ## Absence at the HTTP layer -/

theorem filter_id_ne_nil {α : Type} (key : α → UUID) (rows : List α) (id : UUID)
    (h : ∃ r ∈ rows, key r = id) :
    ∃ r rest, rows.filter (fun r => key r = id) = r :: rest := by
  cases hf : rows.filter (fun r => key r = id) with
  | cons r rest => exact ⟨r, rest, rfl⟩
  | nil =>
    obtain ⟨r, hr, hk⟩ := h
    have := List.filter_eq_nil_iff.mp hf r hr
    simp [hk] at this

/-- C6: when the database calls do not fail, for an identifier that matches no row
`usersGet`, `usersUpdate`, `usersDelete`, `postsDelete` and `postsUpdate` (the last with
an input whose `user_id` exists) return `(nil, *HTTPError{404, ...})`, and their routes
answer with the single write `errorMessage 404`, not with a 500 or a 200. -/
theorem absence_is_404 (ju : Option User → Option GoError) (jp : Option Post → Option GoError)
    (app : DB) (id : UUID) (hh : app.healthy) :
    ((∀ u ∈ app.users, u.Id ≠ id) →
      ((usersGet app (.ok id)).ret =
          .returned (none, some (GoError.HTTPError 404 (.errorf "user does not exist"))) ∧
        GET_users_id ju app false (.ok id) = .wrote [.errorMessage 404 "user does not exist"]) ∧
      ((usersDelete app (.ok id)).ret =
          .returned (none, some (GoError.HTTPError 404 (.errorf "user does not exist"))) ∧
        DELETE_users_id ju app false (.ok id) =
          .wrote [.errorMessage 404 "user does not exist"]) ∧
      (∀ input : UserInput,
        (usersUpdate app (.ok id) (.ok (some input))).ret =
          .returned (none, some (GoError.HTTPError 404 (.errorf "user does not exist"))) ∧
        PUT_users_id ju app false (.ok id) (.ok (.ok (some input))) =
          .wrote [.errorMessage 404 "user does not exist"])) ∧
    ((∀ p ∈ app.posts, p.Id ≠ id) →
      ((postsDelete app (.ok id)).ret =
          .returned (none, some (GoError.HTTPError 404 (.errorf "post does not exist"))) ∧
        DELETE_posts_id jp app false (.ok id) =
          .wrote [.errorMessage 404 "post does not exist"]) ∧
      (∀ input : PostInput, (∃ u ∈ app.users, u.Id = input.UserId) →
        (postsUpdate app (.ok id) (.ok (some input))).ret =
          .returned (none, some (GoError.HTTPError 404 (.errorf "post does not exist"))) ∧
        PUT_posts_id jp app false (.ok id) (.ok (.ok (some input))) =
          .wrote [.errorMessage 404 "post does not exist"])) ∧
    (Write.errorMessage 404 "user does not exist" : Write (Option User)).status = 404 ∧
    (Write.errorMessage 404 "post does not exist" : Write (Option Post)).status = 404 := by
  obtain ⟨ho, hb, hd⟩ := hh
  refine ⟨?_, ?_, rfl, rfl⟩
  · intro hno
    have hnil := filter_id_eq_nil User.Id app.users id hno
    have hnil2 : app.users.filter (fun u => ¬ u.Id = id) = app.users := by
      simp only [List.filter_eq_self, decide_eq_true_eq]
      exact hno
    cases hdr : app.draws with
    | nil =>
      simp [GET_users_id, DELETE_users_id, PUT_users_id, handleQuery, handleMutation,
        writeError, GoError.asHTTPError, GoError.Error, usersGet, usersDelete, usersUpdate,
        beginTx, HandlerRun.after, UsersGetTx, UsersGetTx.scan, UsersDeleteTx,
        UsersDeleteTx.scan, UsersUpdateTx, UsersUpdateTx.scan, Tx.selectUser, Tx.deleteUser,
        Tx.updateUser, Tx.draw, Tx.called, DB.begin, Draw.quiet, Scan, NewHTTPError,
        StatusNotFound, ho, hb, hdr, hnil]
    | cons d ds =>
      have hf : d.fault = none := hd d (by simp [hdr])
      simp [GET_users_id, DELETE_users_id, PUT_users_id, handleQuery, handleMutation,
        writeError, GoError.asHTTPError, GoError.Error, usersGet, usersDelete, usersUpdate,
        beginTx, HandlerRun.after, UsersGetTx, UsersGetTx.scan, UsersDeleteTx,
        UsersDeleteTx.scan, UsersUpdateTx, UsersUpdateTx.scan, Tx.selectUser, Tx.deleteUser,
        Tx.updateUser, Tx.draw, Tx.called, DB.begin, Scan, NewHTTPError,
        StatusNotFound, ho, hb, hdr, hnil, hf]
  · intro hno
    have hnil := filter_id_eq_nil Post.Id app.posts id hno
    refine ⟨?_, ?_⟩
    · cases hdr : app.draws with
      | nil =>
        simp [DELETE_posts_id, handleQuery, writeError, GoError.asHTTPError, GoError.Error,
          postsDelete, beginTx, HandlerRun.after, PostsDeleteTx, PostsDeleteTx.scan,
          Tx.deletePost, Tx.draw, Tx.called, DB.begin, Draw.quiet, Scan, NewHTTPError,
          StatusNotFound, ho, hb, hdr, hnil]
      | cons d ds =>
        have hf : d.fault = none := hd d (by simp [hdr])
        simp [DELETE_posts_id, handleQuery, writeError, GoError.asHTTPError, GoError.Error,
          postsDelete, beginTx, HandlerRun.after, PostsDeleteTx, PostsDeleteTx.scan,
          Tx.deletePost, Tx.draw, Tx.called, DB.begin, Scan, NewHTTPError,
          StatusNotFound, ho, hb, hdr, hnil, hf]
    · intro input hu
      obtain ⟨r, rest, hr⟩ := filter_id_ne_nil User.Id app.users input.UserId hu
      cases hdr : app.draws with
      | nil =>
        simp [PUT_posts_id, handleMutation, writeError, GoError.asHTTPError, GoError.Error,
          postsUpdate, beginTx, HandlerRun.after, UsersGetTx, UsersGetTx.scan, PostsUpdateTx,
          PostsUpdateTx.scan, Tx.selectUser, Tx.updatePost, Tx.draw, Tx.called, DB.begin,
          Draw.quiet, Scan, NewHTTPError, StatusNotFound, ho, hb, hdr, hnil, hr]
      | cons d ds =>
        have hf : d.fault = none := hd d (by simp [hdr])
        cases ds with
        | nil =>
          simp [PUT_posts_id, handleMutation, writeError, GoError.asHTTPError, GoError.Error,
            postsUpdate, beginTx, HandlerRun.after, UsersGetTx, UsersGetTx.scan, PostsUpdateTx,
            PostsUpdateTx.scan, Tx.selectUser, Tx.updatePost, Tx.draw, Tx.called, DB.begin,
            Draw.quiet, Scan, NewHTTPError, StatusNotFound, ho, hb, hdr, hnil, hr, hf]
        | cons d2 ds2 =>
          have hf2 : d2.fault = none := hd d2 (by simp [hdr])
          simp [PUT_posts_id, handleMutation, writeError, GoError.asHTTPError, GoError.Error,
            postsUpdate, beginTx, HandlerRun.after, UsersGetTx, UsersGetTx.scan, PostsUpdateTx,
            PostsUpdateTx.scan, Tx.selectUser, Tx.updatePost, Tx.draw, Tx.called, DB.begin,
            Scan, NewHTTPError, StatusNotFound, ho, hb, hdr, hnil, hr, hf, hf2]

/-- C6 at the fixture of the tests: `GET /api/users/{id}` for the identifier the tests
use as missing is answered with the single write `errorMessage 404`. -/
theorem absence_is_404_witness :
    fixtureDB.healthy ∧ (∀ u ∈ fixtureDB.users, u.Id ≠ missingId) ∧
    GET_users_id (fun _ => none) fixtureDB false (.ok missingId) =
      .wrote [.errorMessage 404 "user does not exist"] :=
  have hh : fixtureDB.healthy := by simp [DB.healthy, fixtureDB]
  have hno : ∀ u ∈ fixtureDB.users, u.Id ≠ missingId := by decide
  ⟨hh, hno,
    ((absence_is_404 (fun _ => none) (fun _ => none) fixtureDB missingId hh).1 hno).1.2⟩

/-- `postsGet` on an identifier that matches no post, in a database that does not
fail: the unit of work returns nil with `post` still nil, the transaction commits, and
the handler returns `(nil, nil)`, which `handleQuery` hands to `response.JSON`. -/
theorem postsGet_missing (jp : Option Post → Option GoError) (app : DB) (id : UUID)
    (hh : app.healthy) (hc : app.commitErr = none) (hno : ∀ p ∈ app.posts, p.Id ≠ id) :
    (postsGet app (.ok id)).ret = .returned (none, none) ∧
    GET_posts_id jp app false (.ok id) = .wrote (writeJSON jp none) := by
  obtain ⟨ho, hb, hd⟩ := hh
  have hnil := filter_id_eq_nil Post.Id app.posts id hno
  cases hdr : app.draws with
  | nil =>
    simp [GET_posts_id, handleQuery, postsGet, beginTx, HandlerRun.after, PostsGetTx,
      PostsGetTx.scan, Tx.selectPost, Tx.draw, Tx.called, DB.begin, Draw.quiet, Scan,
      ho, hb, hc, hdr, hnil]
  | cons d ds =>
    have hf : d.fault = none := hd d (by simp [hdr])
    simp [GET_posts_id, handleQuery, postsGet, beginTx, HandlerRun.after, PostsGetTx,
      PostsGetTx.scan, Tx.selectPost, Tx.draw, Tx.called, DB.begin, Scan,
      ho, hb, hc, hdr, hnil, hf]

/-- `usersGet` on an identifier that matches no user, in a database that does not
fail: the unit of work has the `if u == nil` test and returns the 404. -/
theorem usersGet_missing (ju : Option User → Option GoError) (app : DB) (id : UUID)
    (hh : app.healthy) (hno : ∀ u ∈ app.users, u.Id ≠ id) :
    GET_users_id ju app false (.ok id) = .wrote [.errorMessage 404 "user does not exist"] := by
  obtain ⟨ho, hb, hd⟩ := hh
  have hnil := filter_id_eq_nil User.Id app.users id hno
  cases hdr : app.draws with
  | nil =>
    simp [GET_users_id, handleQuery, usersGet, beginTx, HandlerRun.after, UsersGetTx,
      UsersGetTx.scan, Tx.selectUser, Tx.draw, Tx.called, DB.begin, Draw.quiet, Scan,
      writeError, GoError.asHTTPError, GoError.Error, NewHTTPError, StatusNotFound,
      ho, hb, hdr, hnil]
  | cons d ds =>
    have hf : d.fault = none := hd d (by simp [hdr])
    simp [GET_users_id, handleQuery, usersGet, beginTx, HandlerRun.after, UsersGetTx,
      UsersGetTx.scan, Tx.selectUser, Tx.draw, Tx.called, DB.begin, Scan,
      writeError, GoError.asHTTPError, GoError.Error, NewHTTPError, StatusNotFound,
      ho, hb, hdr, hnil, hf]

/-- C7 does not hold at the fixture of the tests: for the identifier the tests use as
missing, `postsGet` returns `(nil, nil)` and `GET /api/posts/{id}` is answered with
status 200 and a nil body, while `GET /api/users/{id}` is answered with status 404. -/
theorem get_missing_post_is_200 :
    (∀ p ∈ fixtureDB.posts, p.Id ≠ missingId) ∧
    (postsGet fixtureDB (.ok missingId)).ret = .returned (none, none) ∧
    GET_posts_id (fun _ => none) fixtureDB false (.ok missingId) = .wrote [.JSON 200 none] ∧
    GET_users_id (fun _ => none) fixtureDB false (.ok missingId) =
      .wrote [.errorMessage 404 "user does not exist"] := by
  have hh : fixtureDB.healthy := by simp [DB.healthy, fixtureDB]
  have hno : ∀ p ∈ fixtureDB.posts, p.Id ≠ missingId := by decide
  have hnu : ∀ u ∈ fixtureDB.users, u.Id ≠ missingId := by decide
  have h := postsGet_missing (fun _ => none) fixtureDB missingId hh rfl hno
  refine ⟨hno, h.1, ?_, ?_⟩
  · rw [h.2]
    rfl
  · exact usersGet_missing (fun _ => none) fixtureDB missingId hh hnu

/-! ## Absence at the store layer -/

theorem mem_of_filter_id_eq_cons {α : Type} (key : α → UUID) (rows : List α) (id : UUID)
    (r : α) (rest : List α) (h : rows.filter (fun r => key r = id) = r :: rest) :
    r ∈ rows ∧ key r = id := by
  have hm : r ∈ rows.filter (fun r => key r = id) := by simp [h]
  simpa using List.mem_filter.mp hm

theorem filter_id_ne_self {α : Type} (key : α → UUID) (rows : List α) (id : UUID)
    (h : ∀ r ∈ rows, key r ≠ id) : rows.filter (fun r => key r ≠ id) = rows := by
  simp only [List.filter_eq_self, ne_eq, decide_not, Bool.not_eq_eq_eq_not, Bool.not_true,
    decide_eq_false_iff_not]
  exact h

theorem map_set_of_ne {α : Type} (key : α → UUID) (rows : List α) (id : UUID) (f : α → α)
    (h : ∀ r ∈ rows, key r ≠ id) : rows.map (fun r => if key r = id then f r else r) = rows := by
  induction rows with
  | nil => rfl
  | cons a l ih =>
    have ha : key a ≠ id := h a (by simp)
    simp only [List.map_cons, if_neg ha]
    rw [ih (fun r hr => h r (by simp [hr]))]

theorem StoreContract.of_scan {α : Type} (key : α → UUID) (table : List α) (id : UUID)
    (tx tx1 : Tx) (zero : α) (res : Except GoError (List α))
    (h1 : (∀ r ∈ table, key r ≠ id) → tx.draw.1.fault = none →
      res = .ok [] ∧ tx1.users = tx.users ∧ tx1.posts = tx.posts)
    (h2 : ∀ r rest, res = .ok (r :: rest) → key r = id ∧ ∃ r1 ∈ table, key r1 = id) :
    StoreContract key table id tx (Scan zero res, tx1)
      (if (Scan zero res).2 = some GoError.ErrNoRows then ((none, none), tx1)
       else ((some (Scan zero res).1, (Scan zero res).2), tx1)) := by
  unfold StoreContract
  cases res with
  | error e =>
    refine ⟨fun hno hf => ?_, ?_, ?_⟩
    · have := (h1 hno hf).1
      cases this
    · by_cases he : e = GoError.ErrNoRows <;> simp [Scan, he]
    · simp [Scan]
  | ok rows =>
    cases rows with
    | nil =>
      refine ⟨fun hno hf => ?_, ?_, ?_⟩
      · have := h1 hno hf
        simp [Scan, this.2.1, this.2.2]
      · simp [Scan]
      · simp [Scan]
    | cons r rest =>
      obtain ⟨hk, r1, hr1, hk1⟩ := h2 r rest rfl
      refine ⟨fun hno hf => ?_, ?_, ?_⟩
      · exact absurd hk1 (hno r1 hr1)
      · simp [Scan]
      · intro _
        exact ⟨⟨r1, hr1, hk1⟩, r, by simp [Scan], hk⟩

theorem UsersGetTx_contract (tx : Tx) (id : UUID) :
    StoreContract User.Id tx.users id tx (UsersGetTx.scan tx id) (UsersGetTx tx id) := by
  rcases tx with ⟨u, p, s, d, cs⟩
  refine StoreContract.of_scan User.Id u id _ _ User.zero
    ((Tx.called ⟨u, p, s, d, cs⟩ .UsersGetTx).selectUser id).1 ?_ ?_
  · intro hno hf
    have hnil := filter_id_eq_nil User.Id u id hno
    cases d with
    | nil => simp [Tx.selectUser, Tx.draw, Tx.called, Draw.quiet, hnil]
    | cons d ds =>
      simp only [Tx.draw] at hf
      simp [Tx.selectUser, Tx.draw, Tx.called, hf, hnil]
  · intro r rest h
    have key : u.filter (fun r => r.Id = id) = r :: rest := by
      cases d with
      | nil => simpa [Tx.selectUser, Tx.draw, Tx.called, Draw.quiet] using h
      | cons d ds =>
        cases hf : d.fault with
        | some e => simp [Tx.selectUser, Tx.draw, Tx.called, hf] at h
        | none => simpa [Tx.selectUser, Tx.draw, Tx.called, hf] using h
    obtain ⟨hm, hk⟩ := mem_of_filter_id_eq_cons User.Id u id r rest key
    exact ⟨hk, r, hm, hk⟩


theorem UsersUpdateTx_contract (tx : Tx) (id : UUID) (input : UserInput) :
    ∃ out, UsersUpdateTx tx id (some input) = (.returned out.1, out.2) ∧
      StoreContract User.Id tx.users id tx (UsersUpdateTx.scan tx id input) out := by
  refine ⟨if (UsersUpdateTx.scan tx id input).1.2 = some GoError.ErrNoRows
      then ((none, none), (UsersUpdateTx.scan tx id input).2)
      else ((some (UsersUpdateTx.scan tx id input).1.1, (UsersUpdateTx.scan tx id input).1.2),
        (UsersUpdateTx.scan tx id input).2), ?_, ?_⟩
  · simp only [UsersUpdateTx]
    split <;> rfl
  · rcases tx with ⟨u, p, s, d, cs⟩
    refine StoreContract.of_scan User.Id u id _ _ User.zero
      ((Tx.called ⟨u, p, s, d, cs⟩ .UsersUpdateTx).updateUser input.Name input.Email id).1 ?_ ?_
    · intro hno hf
      have hnil := filter_id_eq_nil User.Id u id hno
      cases d with
      | nil =>
        simp [Tx.updateUser, Tx.draw, Tx.called, Draw.quiet, hnil]
        exact map_set_of_ne User.Id u id _ hno
      | cons d ds =>
        simp only [Tx.draw] at hf
        simp [Tx.updateUser, Tx.draw, Tx.called, hf, hnil]
        exact map_set_of_ne User.Id u id _ hno
    · intro r rest h
      have key : ∃ r0 rest0 now, u.filter (fun r => r.Id = id) = r0 :: rest0 ∧
          User.set s now input.Name input.Email r0 = r := by
        cases d with
        | nil =>
          simp [Tx.updateUser, Tx.draw, Tx.called, Draw.quiet, List.map_eq_cons_iff] at h
          obtain ⟨r0, rest0, h0, h1, -⟩ := h
          exact ⟨r0, rest0, _, h0, h1⟩
        | cons d ds =>
          cases hf : d.fault with
          | some e => simp [Tx.updateUser, Tx.draw, Tx.called, hf] at h
          | none =>
            simp [Tx.updateUser, Tx.draw, Tx.called, hf, List.map_eq_cons_iff] at h
            obtain ⟨r0, rest0, h0, h1, -⟩ := h
            exact ⟨r0, rest0, _, h0, h1⟩
      obtain ⟨r0, rest0, now, h0, hr⟩ := key
      obtain ⟨hm, hk⟩ := mem_of_filter_id_eq_cons User.Id u id r0 rest0 h0
      subst hr
      exact ⟨hk, r0, hm, hk⟩


theorem UsersDeleteTx_contract (tx : Tx) (id : UUID) :
    StoreContract User.Id tx.users id tx (UsersDeleteTx.scan tx id) (UsersDeleteTx tx id) := by
  rcases tx with ⟨u, p, s, d, cs⟩
  refine StoreContract.of_scan User.Id u id _ _ User.zero
    ((Tx.called ⟨u, p, s, d, cs⟩ .UsersDeleteTx).deleteUser id).1 ?_ ?_
  · intro hno hf
    have hnil := filter_id_eq_nil User.Id u id hno
    have hself := filter_id_ne_self User.Id u id hno
    cases d with
    | nil =>
      simp only [ne_eq, decide_not] at hself
      simp [Tx.deleteUser, Tx.draw, Tx.called, Draw.quiet, hnil, hself]
    | cons d ds =>
      simp only [Tx.draw] at hf
      simp only [ne_eq, decide_not] at hself
      simp [Tx.deleteUser, Tx.draw, Tx.called, hf, hnil, hself]
  · intro r rest h
    have key : u.filter (fun r => r.Id = id) = r :: rest := by
      cases d with
      | nil =>
        simp only [Tx.deleteUser, Tx.draw, Tx.called, Draw.quiet] at h
        split at h
        · split at h
          · simpa using h
          · simp at h
        · simpa using h
      | cons d ds =>
        cases hf : d.fault with
        | some e => simp [Tx.deleteUser, Tx.draw, Tx.called, hf] at h
        | none =>
          simp only [Tx.deleteUser, Tx.draw, Tx.called, hf] at h
          split at h
          · split at h
            · simpa using h
            · simp at h
          · simpa using h
    obtain ⟨hm, hk⟩ := mem_of_filter_id_eq_cons User.Id u id r rest key
    exact ⟨hk, r, hm, hk⟩

theorem PostsGetTx_contract (tx : Tx) (id : UUID) :
    StoreContract Post.Id tx.posts id tx (PostsGetTx.scan tx id) (PostsGetTx tx id) := by
  rcases tx with ⟨u, p, s, d, cs⟩
  refine StoreContract.of_scan Post.Id p id _ _ Post.zero
    ((Tx.called ⟨u, p, s, d, cs⟩ .PostsGetTx).selectPost id).1 ?_ ?_
  · intro hno hf
    have hnil := filter_id_eq_nil Post.Id p id hno
    cases d with
    | nil => simp [Tx.selectPost, Tx.draw, Tx.called, Draw.quiet, hnil]
    | cons d ds =>
      simp only [Tx.draw] at hf
      simp [Tx.selectPost, Tx.draw, Tx.called, hf, hnil]
  · intro r rest h
    have key : p.filter (fun r => r.Id = id) = r :: rest := by
      cases d with
      | nil => simpa [Tx.selectPost, Tx.draw, Tx.called, Draw.quiet] using h
      | cons d ds =>
        cases hf : d.fault with
        | some e => simp [Tx.selectPost, Tx.draw, Tx.called, hf] at h
        | none => simpa [Tx.selectPost, Tx.draw, Tx.called, hf] using h
    obtain ⟨hm, hk⟩ := mem_of_filter_id_eq_cons Post.Id p id r rest key
    exact ⟨hk, r, hm, hk⟩

theorem PostsUpdateTx_contract (tx : Tx) (id : UUID) (input : PostInput) :
    ∃ out, PostsUpdateTx tx id (some input) = (.returned out.1, out.2) ∧
      StoreContract Post.Id tx.posts id tx (PostsUpdateTx.scan tx id input) out := by
  refine ⟨if (PostsUpdateTx.scan tx id input).1.2 = some GoError.ErrNoRows
      then ((none, none), (PostsUpdateTx.scan tx id input).2)
      else ((some (PostsUpdateTx.scan tx id input).1.1, (PostsUpdateTx.scan tx id input).1.2),
        (PostsUpdateTx.scan tx id input).2), ?_, ?_⟩
  · simp only [PostsUpdateTx]
    split <;> rfl
  · rcases tx with ⟨u, p, s, d, cs⟩
    refine StoreContract.of_scan Post.Id p id _ _ Post.zero
      ((Tx.called ⟨u, p, s, d, cs⟩ .PostsUpdateTx).updatePost input.Title input.Content
        input.UserId id).1 ?_ ?_
    · intro hno hf
      have hnil := filter_id_eq_nil Post.Id p id hno
      cases d with
      | nil =>
        simp [Tx.updatePost, Tx.draw, Tx.called, Draw.quiet, hnil]
        exact map_set_of_ne Post.Id p id _ hno
      | cons d ds =>
        simp only [Tx.draw] at hf
        simp [Tx.updatePost, Tx.draw, Tx.called, hf, hnil]
        exact map_set_of_ne Post.Id p id _ hno
    · intro r rest h
      have key : ∃ r0 rest0 now, p.filter (fun r => r.Id = id) = r0 :: rest0 ∧
          Post.set s now input.Title input.Content input.UserId r0 = r := by
        cases d with
        | nil =>
          simp only [Tx.updatePost, Tx.draw, Tx.called, Draw.quiet] at h
          split at h
          · simp at h
          · simp [List.map_eq_cons_iff] at h
            obtain ⟨r0, rest0, h0, h1, -⟩ := h
            exact ⟨r0, rest0, _, h0, h1⟩
        | cons d ds =>
          cases hf : d.fault with
          | some e => simp [Tx.updatePost, Tx.draw, Tx.called, hf] at h
          | none =>
            simp only [Tx.updatePost, Tx.draw, Tx.called, hf] at h
            split at h
            · simp at h
            · simp [List.map_eq_cons_iff] at h
              obtain ⟨r0, rest0, h0, h1, -⟩ := h
              exact ⟨r0, rest0, _, h0, h1⟩
      obtain ⟨r0, rest0, now, h0, hr⟩ := key
      obtain ⟨hm, hk⟩ := mem_of_filter_id_eq_cons Post.Id p id r0 rest0 h0
      subst hr
      exact ⟨hk, r0, hm, hk⟩

theorem PostsDeleteTx_contract (tx : Tx) (id : UUID) :
    StoreContract Post.Id tx.posts id tx (PostsDeleteTx.scan tx id) (PostsDeleteTx tx id) := by
  rcases tx with ⟨u, p, s, d, cs⟩
  refine StoreContract.of_scan Post.Id p id _ _ Post.zero
    ((Tx.called ⟨u, p, s, d, cs⟩ .PostsDeleteTx).deletePost id).1 ?_ ?_
  · intro hno hf
    have hnil := filter_id_eq_nil Post.Id p id hno
    have hself := filter_id_ne_self Post.Id p id hno
    simp only [ne_eq, decide_not] at hself
    cases d with
    | nil => simp [Tx.deletePost, Tx.draw, Tx.called, Draw.quiet, hnil, hself]
    | cons d ds =>
      simp only [Tx.draw] at hf
      simp [Tx.deletePost, Tx.draw, Tx.called, hf, hnil, hself]
  · intro r rest h
    have key : p.filter (fun r => r.Id = id) = r :: rest := by
      cases d with
      | nil => simpa [Tx.deletePost, Tx.draw, Tx.called, Draw.quiet] using h
      | cons d ds =>
        cases hf : d.fault with
        | some e => simp [Tx.deletePost, Tx.draw, Tx.called, hf] at h
        | none => simpa [Tx.deletePost, Tx.draw, Tx.called, hf] using h
    obtain ⟨hm, hk⟩ := mem_of_filter_id_eq_cons Post.Id p id r rest key
    exact ⟨hk, r, hm, hk⟩

theorem scan_of_match (tx : Tx) (id : UUID) (hf : tx.draw.1.fault = none) :
    ((∃ r ∈ tx.users, r.Id = id) →
      (UsersGetTx.scan tx id).1.2 = none ∧
      (∀ input, (UsersUpdateTx.scan tx id input).1.2 = none) ∧
      ((tx.schema.cascadeDelete = true ∨ ∀ p ∈ tx.posts, p.UserId ≠ id) →
        (UsersDeleteTx.scan tx id).1.2 = none)) ∧
    ((∃ r ∈ tx.posts, r.Id = id) →
      (PostsGetTx.scan tx id).1.2 = none ∧
      (PostsDeleteTx.scan tx id).1.2 = none ∧
      (∀ input : PostInput, (∃ u ∈ tx.users, u.Id = input.UserId) →
        (PostsUpdateTx.scan tx id input).1.2 = none)) := by
  rcases tx with ⟨u, p, s, d, cs⟩
  have hd : ∀ c, (Tx.called ⟨u, p, s, d, cs⟩ c).draw.1.fault = none := by
    intro c
    cases d <;> simpa [Tx.draw, Tx.called] using hf
  constructor
  · intro hex
    obtain ⟨r, rest, hr⟩ := filter_id_ne_nil User.Id u id hex
    refine ⟨?_, ?_, ?_⟩
    · have := hd .UsersGetTx
      cases d with
      | nil => simp [UsersGetTx.scan, Tx.selectUser, Tx.draw, Tx.called, Draw.quiet, Scan, hr]
      | cons d ds =>
        simp only [Tx.draw, Tx.called] at this
        simp [UsersGetTx.scan, Tx.selectUser, Tx.draw, Tx.called, Scan, hr, this]
    · intro input
      have := hd .UsersUpdateTx
      cases d with
      | nil => simp [UsersUpdateTx.scan, Tx.updateUser, Tx.draw, Tx.called, Draw.quiet, Scan, hr]
      | cons d ds =>
        simp only [Tx.draw, Tx.called] at this
        simp [UsersUpdateTx.scan, Tx.updateUser, Tx.draw, Tx.called, Scan, hr, this]
    · intro hfk
      have := hd .UsersDeleteTx
      have hany : s.cascadeDelete = true ∨ p.any (fun q => q.UserId = id) = false := by
        rcases hfk with h | h
        · exact Or.inl h
        · refine Or.inr ?_
          simpa using h
      cases d with
      | nil =>
        rcases hany with h | h
        · by_cases hp : ∃ x ∈ p, x.UserId = id <;>
            simp [UsersDeleteTx.scan, Tx.deleteUser, Tx.draw, Tx.called, Draw.quiet, Scan, hr,
              h, hp]
        · simp [UsersDeleteTx.scan, Tx.deleteUser, Tx.draw, Tx.called, Draw.quiet, Scan, hr, h]
      | cons d ds =>
        simp only [Tx.draw, Tx.called] at this
        rcases hany with h | h
        · by_cases hp : ∃ x ∈ p, x.UserId = id <;>
            simp [UsersDeleteTx.scan, Tx.deleteUser, Tx.draw, Tx.called, Scan, hr, h, hp, this]
        · simp [UsersDeleteTx.scan, Tx.deleteUser, Tx.draw, Tx.called, Scan, hr, h, this]
  · intro hex
    obtain ⟨r, rest, hr⟩ := filter_id_ne_nil Post.Id p id hex
    refine ⟨?_, ?_, ?_⟩
    · have := hd .PostsGetTx
      cases d with
      | nil => simp [PostsGetTx.scan, Tx.selectPost, Tx.draw, Tx.called, Draw.quiet, Scan, hr]
      | cons d ds =>
        simp only [Tx.draw, Tx.called] at this
        simp [PostsGetTx.scan, Tx.selectPost, Tx.draw, Tx.called, Scan, hr, this]
    · have := hd .PostsDeleteTx
      cases d with
      | nil => simp [PostsDeleteTx.scan, Tx.deletePost, Tx.draw, Tx.called, Draw.quiet, Scan, hr]
      | cons d ds =>
        simp only [Tx.draw, Tx.called] at this
        simp [PostsDeleteTx.scan, Tx.deletePost, Tx.draw, Tx.called, Scan, hr, this]
    · intro input hu
      have := hd .PostsUpdateTx
      have hany : u.any (fun q => q.Id = input.UserId) = true := by
        simpa using hu
      cases d with
      | nil =>
        simp [PostsUpdateTx.scan, Tx.updatePost, Tx.draw, Tx.called, Draw.quiet, Scan, hr, hany]
      | cons d ds =>
        simp only [Tx.draw, Tx.called] at this
        simp [PostsUpdateTx.scan, Tx.updatePost, Tx.draw, Tx.called, Scan, hr, this, hany]

/-- C8: each of `UsersGetTx`, `UsersUpdateTx`, `UsersDeleteTx`, `PostsGetTx`,
`PostsUpdateTx` and `PostsDeleteTx` keeps the store contract (`StoreContract`): for an
identifier that matches no row, and a statement that is not answered by a failure, it
returns `(nil, nil)` and leaves both tables unchanged; it returns a non-nil error
exactly when its row scan failed with an error other than `sql.ErrNoRows`; and when
the row scan succeeded a row matched and it returns a non-nil entity with that
identifier and a nil error. When a row matches and the statement is not answered by a
failure, the row scan succeeds (for `UsersDeleteTx` unless posts refer to the user in a
schema that does not cascade, for `PostsUpdateTx` when the new `user_id` exists). -/
theorem store_absence_contract (tx : Tx) (id : UUID) (uin : UserInput) (pin : PostInput) :
    StoreContract User.Id tx.users id tx (UsersGetTx.scan tx id) (UsersGetTx tx id) ∧
    (∃ out, UsersUpdateTx tx id (some uin) = (.returned out.1, out.2) ∧
      StoreContract User.Id tx.users id tx (UsersUpdateTx.scan tx id uin) out) ∧
    StoreContract User.Id tx.users id tx (UsersDeleteTx.scan tx id) (UsersDeleteTx tx id) ∧
    StoreContract Post.Id tx.posts id tx (PostsGetTx.scan tx id) (PostsGetTx tx id) ∧
    (∃ out, PostsUpdateTx tx id (some pin) = (.returned out.1, out.2) ∧
      StoreContract Post.Id tx.posts id tx (PostsUpdateTx.scan tx id pin) out) ∧
    StoreContract Post.Id tx.posts id tx (PostsDeleteTx.scan tx id) (PostsDeleteTx tx id) ∧
    (tx.draw.1.fault = none →
      ((∃ r ∈ tx.users, r.Id = id) →
        (UsersGetTx.scan tx id).1.2 = none ∧
        (UsersUpdateTx.scan tx id uin).1.2 = none ∧
        ((tx.schema.cascadeDelete = true ∨ ∀ p ∈ tx.posts, p.UserId ≠ id) →
          (UsersDeleteTx.scan tx id).1.2 = none)) ∧
      ((∃ r ∈ tx.posts, r.Id = id) →
        (PostsGetTx.scan tx id).1.2 = none ∧
        (PostsDeleteTx.scan tx id).1.2 = none ∧
        ((∃ u ∈ tx.users, u.Id = pin.UserId) →
          (PostsUpdateTx.scan tx id pin).1.2 = none))) := by
  refine ⟨UsersGetTx_contract tx id, UsersUpdateTx_contract tx id uin,
    UsersDeleteTx_contract tx id, PostsGetTx_contract tx id, PostsUpdateTx_contract tx id pin,
    PostsDeleteTx_contract tx id, fun hf => ⟨fun hex => ?_, fun hex => ?_⟩⟩
  · obtain ⟨h1, h2, h3⟩ := (scan_of_match tx id hf).1 hex
    exact ⟨h1, h2 uin, h3⟩
  · obtain ⟨h1, h2, h3⟩ := (scan_of_match tx id hf).2 hex
    exact ⟨h1, h2, h3 pin⟩

/-- C8 at the fixture of the tests: the six functions on the identifier the tests use
as missing return `(nil, nil)`, and `UsersGetTx` on `UserId1` returns the fixture row. -/
theorem store_absence_contract_witness :
    (UsersGetTx fixtureDB.begin missingId).1 = (none, none) ∧
    (UsersDeleteTx fixtureDB.begin missingId).1 = (none, none) ∧
    (PostsGetTx fixtureDB.begin missingId).1 = (none, none) ∧
    (PostsDeleteTx fixtureDB.begin missingId).1 = (none, none) ∧
    (UsersGetTx.scan fixtureDB.begin UserId1).1.2 = none :=
  have h := store_absence_contract fixtureDB.begin missingId ⟨"n", "e"⟩ ⟨"t", "c", UserId1⟩
  have hu : ∀ r ∈ fixtureDB.begin.users, r.Id ≠ missingId := by decide
  have hp : ∀ r ∈ fixtureDB.begin.posts, r.Id ≠ missingId := by decide
  have hf : fixtureDB.begin.draw.1.fault = none := rfl
  ⟨(h.1.1 hu hf).1, (h.2.2.1.1 hu hf).1, (h.2.2.2.1.1 hp hf).1, (h.2.2.2.2.2.1.1 hp hf).1,
    ((store_absence_contract fixtureDB.begin UserId1 ⟨"n", "e"⟩ ⟨"t", "c", UserId1⟩).2.2.2.2.2.2
      hf).1 (by decide) |>.1⟩


/-! ## Create, then get -/

theorem UsersGetTx_first (tx : Tx) (id : UUID) (g : User) (rest : List User)
    (hf : tx.draw.1.fault = none) (h : tx.users.filter (fun r => r.Id = id) = g :: rest) :
    (UsersGetTx tx id).1 = (some g, none) := by
  rcases tx with ⟨u, p, s, d, cs⟩
  cases d with
  | nil =>
    simp only at h
    simp [UsersGetTx, UsersGetTx.scan, Tx.selectUser, Tx.draw, Tx.called, Draw.quiet, Scan, h]
  | cons d ds =>
    simp only [Tx.draw] at hf
    simp only at h
    simp [UsersGetTx, UsersGetTx.scan, Tx.selectUser, Tx.draw, Tx.called, Scan, h, hf]

theorem PostsGetTx_first (tx : Tx) (id : UUID) (g : Post) (rest : List Post)
    (hf : tx.draw.1.fault = none) (h : tx.posts.filter (fun r => r.Id = id) = g :: rest) :
    (PostsGetTx tx id).1 = (some g, none) := by
  rcases tx with ⟨u, p, s, d, cs⟩
  cases d with
  | nil =>
    simp only at h
    simp [PostsGetTx, PostsGetTx.scan, Tx.selectPost, Tx.draw, Tx.called, Draw.quiet, Scan, h]
  | cons d ds =>
    simp only [Tx.draw] at hf
    simp only at h
    simp [PostsGetTx, PostsGetTx.scan, Tx.selectPost, Tx.draw, Tx.called, Scan, h, hf]

theorem UsersCreateTx_ok (tx tx1 : Tx) (uin : UserInput) (u : User)
    (h : UsersCreateTx tx (some uin) = (.returned (some u, none), tx1)) :
    u = ⟨genId tx.draw.1, uin.Email, uin.Name, tx.draw.1.now, none⟩ ∧
    (∀ r ∈ tx.users, r.Id ≠ u.Id) ∧ tx1.users = tx.users ++ [u] ∧ tx1.posts = tx.posts := by
  rcases tx with ⟨us, p, s, d, cs⟩
  simp only [UsersCreateTx, UsersCreateTx.scan, Tx.insertUser, Tx.called] at h
  cases d with
  | nil =>
    simp only [Tx.draw, Draw.quiet] at h ⊢
    split at h
    · simp [Scan] at h
    · rename_i hany
      simp [Scan] at h
      obtain ⟨hu, htx⟩ := h
      subst hu
      subst htx
      simp at hany
      simpa using hany
  | cons d ds =>
    simp only [Tx.draw] at h ⊢
    cases hf : d.fault with
    | some e => simp [hf, Scan] at h
    | none =>
      simp only [hf] at h
      split at h
      · simp [Scan] at h
      · rename_i hany
        simp [Scan] at h
        obtain ⟨hu, htx⟩ := h
        subst hu
        subst htx
        simp at hany
        simpa using hany


theorem PostsCreateTx_ok (tx tx1 : Tx) (pin : PostInput) (q : Post)
    (h : PostsCreateTx tx (some pin) = (.returned (some q, none), tx1)) :
    q = ⟨genId tx.draw.1, pin.Title, pin.Content, pin.UserId, tx.draw.1.now, none⟩ ∧
    (∀ r ∈ tx.posts, r.Id ≠ q.Id) ∧ tx1.posts = tx.posts ++ [q] ∧ tx1.users = tx.users ∧
    (∃ u ∈ tx.users, u.Id = pin.UserId) := by
  rcases tx with ⟨us, p, s, d, cs⟩
  simp only [PostsCreateTx, PostsCreateTx.scan, Tx.insertPost, Tx.called] at h
  cases d with
  | nil =>
    simp only [Tx.draw, Draw.quiet] at h ⊢
    split at h
    · simp [Scan] at h
    · rename_i hany
      split at h
      · rename_i hfk
        simp [Scan] at h
        obtain ⟨hu, htx⟩ := h
        subst hu
        subst htx
        simp at hany hfk
        exact ⟨rfl, by simpa using hany, by simp, rfl, hfk⟩
      · simp [Scan] at h
  | cons d ds =>
    simp only [Tx.draw] at h ⊢
    cases hf : d.fault with
    | some e => simp [hf, Scan] at h
    | none =>
      simp only [hf] at h
      split at h
      · simp [Scan] at h
      · rename_i hany
        split at h
        · rename_i hfk
          simp [Scan] at h
          obtain ⟨hu, htx⟩ := h
          subst hu
          subst htx
          simp at hany hfk
          exact ⟨rfl, by simpa using hany, by simp, rfl, hfk⟩
        · simp [Scan] at h

theorem UsersCreateTx_succeeds (tx : Tx) (uin : UserInput) (hf : tx.draw.1.fault = none)
    (hfree : ∀ r ∈ tx.users, r.Id ≠ genId tx.draw.1) :
    ∃ u tx1, UsersCreateTx tx (some uin) = (.returned (some u, none), tx1) := by
  rcases tx with ⟨us, p, s, d, cs⟩
  cases d with
  | nil =>
    simp only [Tx.draw, Draw.quiet] at hfree
    have hany : ¬ ∃ x ∈ us, x.Id = genId ⟨none, 0, 0, none, none⟩ := by
      rintro ⟨x, hx, he⟩
      exact hfree x hx he
    simp [UsersCreateTx, UsersCreateTx.scan, Tx.insertUser, Tx.called, Tx.draw, Draw.quiet,
      Scan, hany]
  | cons d ds =>
    simp only [Tx.draw] at hf hfree
    have hany : ¬ ∃ x ∈ us, x.Id = genId d := by
      rintro ⟨x, hx, he⟩
      exact hfree x hx he
    simp [UsersCreateTx, UsersCreateTx.scan, Tx.insertUser, Tx.called, Tx.draw, Scan, hf, hany]

theorem PostsCreateTx_succeeds (tx : Tx) (pin : PostInput) (hf : tx.draw.1.fault = none)
    (hfree : ∀ r ∈ tx.posts, r.Id ≠ genId tx.draw.1)
    (hu : ∃ u ∈ tx.users, u.Id = pin.UserId) :
    ∃ q tx1, PostsCreateTx tx (some pin) = (.returned (some q, none), tx1) := by
  rcases tx with ⟨us, p, s, d, cs⟩
  cases d with
  | nil =>
    simp only [Tx.draw, Draw.quiet] at hfree
    have hany : ¬ ∃ x ∈ p, x.Id = genId ⟨none, 0, 0, none, none⟩ := by
      rintro ⟨x, hx, he⟩
      exact hfree x hx he
    simp only at hu
    simp [PostsCreateTx, PostsCreateTx.scan, Tx.insertPost, Tx.called, Tx.draw, Draw.quiet,
      Scan, hany, hu]
  | cons d ds =>
    simp only [Tx.draw] at hf hfree
    have hany : ¬ ∃ x ∈ p, x.Id = genId d := by
      rintro ⟨x, hx, he⟩
      exact hfree x hx he
    simp only at hu
    simp [PostsCreateTx, PostsCreateTx.scan, Tx.insertPost, Tx.called, Tx.draw, Scan, hf,
      hany, hu]

/-- C9: the entity `UsersCreateTx` returns with a nil error has a non-nil identifier,
the name and email of the input and no update timestamp, and `UsersGetTx` on that
identifier in the same transaction returns an entity with the same identifier, name
and email; likewise `PostsCreateTx` and `PostsGetTx` with title, content and `user_id`.
The creation does return a nil error when the server does not fail and the generated
identifier is not taken (and, for a post, the user exists). -/
theorem create_get_round_trip (tx : Tx) (uin : UserInput) (pin : PostInput) :
    (∀ u tx1, UsersCreateTx tx (some uin) = (.returned (some u, none), tx1) →
      u.Id ≠ uuidNil ∧ u.Name = uin.Name ∧ u.Email = uin.Email ∧ u.UpdatedAt = none ∧
      (tx1.draw.1.fault = none →
        ∃ g, (UsersGetTx tx1 u.Id).1 = (some g, none) ∧
          g.Id = u.Id ∧ g.Name = uin.Name ∧ g.Email = uin.Email)) ∧
    (tx.draw.1.fault = none → (∀ r ∈ tx.users, r.Id ≠ genId tx.draw.1) →
      ∃ u tx1, UsersCreateTx tx (some uin) = (.returned (some u, none), tx1)) ∧
    (∀ q tx1, PostsCreateTx tx (some pin) = (.returned (some q, none), tx1) →
      q.Id ≠ uuidNil ∧ q.Title = pin.Title ∧ q.Content = pin.Content ∧
      q.UserId = pin.UserId ∧ q.UpdatedAt = none ∧
      (tx1.draw.1.fault = none →
        ∃ g, (PostsGetTx tx1 q.Id).1 = (some g, none) ∧
          g.Id = q.Id ∧ g.Title = pin.Title ∧ g.Content = pin.Content ∧
          g.UserId = pin.UserId)) ∧
    (tx.draw.1.fault = none → (∀ r ∈ tx.posts, r.Id ≠ genId tx.draw.1) →
      (∃ u ∈ tx.users, u.Id = pin.UserId) →
      ∃ q tx1, PostsCreateTx tx (some pin) = (.returned (some q, none), tx1)) := by
  refine ⟨?_, UsersCreateTx_succeeds tx uin, ?_, PostsCreateTx_succeeds tx pin⟩
  · intro u tx1 h
    obtain ⟨hu, hfree, hus, -⟩ := UsersCreateTx_ok tx tx1 uin u h
    refine ⟨?_, ?_, ?_, ?_, ?_⟩
    · rw [hu]
      simp [genId, uuidNil]
    · rw [hu]
    · rw [hu]
    · rw [hu]
    · intro hf
      have hfil : tx1.users.filter (fun r => r.Id = u.Id) = [u] := by
        rw [hus, List.filter_append, filter_id_eq_nil User.Id tx.users u.Id hfree]
        simp
      refine ⟨u, UsersGetTx_first tx1 u.Id u [] hf hfil, rfl, ?_, ?_⟩ <;> rw [hu]
  · intro q tx1 h
    obtain ⟨hq, hfree, hps, -, -⟩ := PostsCreateTx_ok tx tx1 pin q h
    refine ⟨?_, ?_, ?_, ?_, ?_, ?_⟩
    · rw [hq]
      simp [genId, uuidNil]
    · rw [hq]
    · rw [hq]
    · rw [hq]
    · rw [hq]
    · intro hf
      have hfil : tx1.posts.filter (fun r => r.Id = q.Id) = [q] := by
        rw [hps, List.filter_append, filter_id_eq_nil Post.Id tx.posts q.Id hfree]
        simp
      refine ⟨q, PostsGetTx_first tx1 q.Id q [] hf hfil, rfl, ?_, ?_, ?_⟩ <;> rw [hq]


/-! ## Get all -/

theorem scanRows_ok {α : Type} (rows acc : List α) :
    scanRows (rows.map Except.ok) acc = (some (acc ++ rows), (none : Option GoError)) := by
  induction rows generalizing acc with
  | nil => simp [scanRows]
  | cons r rest ih => simp [scanRows, ih]

theorem Rows.over_clean {α : Type} (d : Draw) (rows : List α) (h : d.clean) :
    (Rows.over d rows).items = rows.map Except.ok := by
  obtain ⟨-, hs, hn⟩ := h
  simp [Rows.over, hs, hn]

theorem filter_id_of_nodup {α : Type} (key : α → UUID) (rows : List α) (r : α)
    (hnd : (rows.map key).Nodup) (hr : r ∈ rows) :
    rows.filter (fun x => key x = key r) = [r] := by
  induction rows with
  | nil => cases hr
  | cons a l ih =>
    simp only [List.map_cons, List.nodup_cons, List.mem_map, not_exists, not_and] at hnd
    obtain ⟨ha, hl⟩ := hnd
    rcases List.mem_cons.mp hr with h | h
    · subst h
      have hnil : l.filter (fun x => key x = key r) = [] :=
        filter_id_eq_nil key l (key r) (fun x hx => ha x hx)
      simp [List.filter_cons, hnil]
    · have hne : key a ≠ key r := fun he => ha r h he.symm
      simp [List.filter_cons, hne, ih hl h]

theorem orderUsers_spec (rows : List User) :
    (orderUsers rows).Perm rows ∧ (orderUsers rows).Sorted (fun a b => b.CreatedAt ≤ a.CreatedAt) := by
  haveI : IsTotal User (fun a b => b.CreatedAt ≤ a.CreatedAt) := ⟨fun a b => Nat.le_total _ _⟩
  haveI : IsTrans User (fun a b => b.CreatedAt ≤ a.CreatedAt) :=
    ⟨fun _ _ _ hab hbc => Nat.le_trans hbc hab⟩
  exact ⟨List.perm_insertionSort _ rows, List.sorted_insertionSort _ rows⟩

theorem orderPosts_spec (rows : List Post) :
    (orderPosts rows).Perm rows ∧ (orderPosts rows).Sorted (fun a b => b.CreatedAt ≤ a.CreatedAt) := by
  haveI : IsTotal Post (fun a b => b.CreatedAt ≤ a.CreatedAt) := ⟨fun a b => Nat.le_total _ _⟩
  haveI : IsTrans Post (fun a b => b.CreatedAt ≤ a.CreatedAt) :=
    ⟨fun _ _ _ hab hbc => Nat.le_trans hbc hab⟩
  exact ⟨List.perm_insertionSort _ rows, List.sorted_insertionSort _ rows⟩

theorem UsersGetAllTx_clean (tx : Tx) (h : tx.draw.1.clean) :
    (UsersGetAllTx tx).1 = (some (orderUsers tx.users), none) ∧
    (UsersGetAllTx tx).2.users = tx.users := by
  rcases tx with ⟨u, p, s, d, cs⟩
  cases d with
  | nil =>
    simp [UsersGetAllTx, Tx.queryUsers, Tx.draw, Tx.called, Draw.quiet, Rows.over, scanRows_ok]
  | cons d ds =>
    simp only [Tx.draw] at h
    have hi := Rows.over_clean d (orderUsers u) h
    simp [UsersGetAllTx, Tx.queryUsers, Tx.draw, Tx.called, h.1, hi, scanRows_ok]

theorem PostsGetAllTx_clean (tx : Tx) (h : tx.draw.1.clean) :
    (PostsGetAllTx tx).1 = (some (orderPosts tx.posts), none) ∧
    (PostsGetAllTx tx).2.posts = tx.posts := by
  rcases tx with ⟨u, p, s, d, cs⟩
  cases d with
  | nil =>
    simp [PostsGetAllTx, Tx.queryPosts, Tx.draw, Tx.called, Draw.quiet, Rows.over, scanRows_ok]
  | cons d ds =>
    simp only [Tx.draw] at h
    have hi := Rows.over_clean d (orderPosts p) h
    simp [PostsGetAllTx, Tx.queryPosts, Tx.draw, Tx.called, h.1, hi, scanRows_ok]

/-- C10: when the query is not answered by a failure, `UsersGetAllTx` and
`PostsGetAllTx` return, with a nil error, a non-nil sequence that holds the rows of
the table, one entity per row (a permutation of the table), in non-increasing order of
`created_at`; each entity is what get-by-id then returns for its identifier in the same
transaction (the identifiers of a table being distinct); and for an empty table the
sequence is empty and non-nil. -/
theorem get_all_ordered (tx : Tx) (hq : tx.draw.1.clean) :
    (∃ us, (UsersGetAllTx tx).1 = (some us, none) ∧ us.Perm tx.users ∧
      us.Sorted User.newerFirst ∧
      ((tx.users.map User.Id).Nodup → (UsersGetAllTx tx).2.draw.1.fault = none →
        ∀ u ∈ us, (UsersGetTx (UsersGetAllTx tx).2 u.Id).1 = (some u, none)) ∧
      (tx.users = [] → us = [])) ∧
    (∃ ps, (PostsGetAllTx tx).1 = (some ps, none) ∧ ps.Perm tx.posts ∧
      ps.Sorted Post.newerFirst ∧
      ((tx.posts.map Post.Id).Nodup → (PostsGetAllTx tx).2.draw.1.fault = none →
        ∀ q ∈ ps, (PostsGetTx (PostsGetAllTx tx).2 q.Id).1 = (some q, none)) ∧
      (tx.posts = [] → ps = [])) := by
  constructor
  · obtain ⟨hr, hu⟩ := UsersGetAllTx_clean tx hq
    obtain ⟨hperm, hsort⟩ := orderUsers_spec tx.users
    refine ⟨orderUsers tx.users, hr, hperm, hsort, ?_, ?_⟩
    · intro hnd hf u hmem
      have hin : u ∈ (UsersGetAllTx tx).2.users := by
        rw [hu]
        exact hperm.mem_iff.mp hmem
      have hnd2 : ((UsersGetAllTx tx).2.users.map User.Id).Nodup := by
        rw [hu]
        exact hnd
      exact UsersGetTx_first _ u.Id u [] hf
        (filter_id_of_nodup User.Id _ u hnd2 hin)
    · intro he
      rw [he]
      rfl
  · obtain ⟨hr, hu⟩ := PostsGetAllTx_clean tx hq
    obtain ⟨hperm, hsort⟩ := orderPosts_spec tx.posts
    refine ⟨orderPosts tx.posts, hr, hperm, hsort, ?_, ?_⟩
    · intro hnd hf q hmem
      have hin : q ∈ (PostsGetAllTx tx).2.posts := by
        rw [hu]
        exact hperm.mem_iff.mp hmem
      have hnd2 : ((PostsGetAllTx tx).2.posts.map Post.Id).Nodup := by
        rw [hu]
        exact hnd
      exact PostsGetTx_first _ q.Id q [] hf
        (filter_id_of_nodup Post.Id _ q hnd2 hin)
    · intro he
      rw [he]
      rfl


/-- C10 at the fixture of the tests (`TestUsersGetAllTx`): the query is not answered by
a failure, and `UsersGetAllTx` returns a non-nil sequence with a nil error that is a
permutation of the users, newest first. -/
theorem get_all_ordered_witness :
    fixtureDB.begin.draw.1.clean ∧
    ∃ us, (UsersGetAllTx fixtureDB.begin).1 = (some us, none) ∧
      us.Perm fixtureDB.begin.users ∧ us.Sorted User.newerFirst :=
  have hq : fixtureDB.begin.draw.1.clean := ⟨rfl, rfl, rfl⟩
  ⟨hq, (get_all_ordered fixtureDB.begin hq).1.elim
    (fun us h => ⟨us, h.1, h.2.1, h.2.2.1⟩)⟩

/-- C9 at the fixture of the tests (`TestUsersCreateTx`, "Create 2 users"): creating
the user `{"one", "1"}` returns a nil error. -/
theorem create_get_round_trip_witness :
    ∃ u tx1, UsersCreateTx fixtureDB.begin (some ⟨"one", "1"⟩) =
      (.returned (some u, none), tx1) :=
  (create_get_round_trip fixtureDB.begin ⟨"one", "1"⟩ ⟨"one", "1", UserId1⟩).2.1 rfl
    (by decide)


/-! ## Validation -/

/-- C11: a body that fails JSON decoding (`usersCreate`, `usersUpdate`, `postsCreate`,
`postsUpdate`) or an `id` parameter that fails `uuid.Parse` (`usersGet`, `usersUpdate`,
`usersDelete`, `postsGet`, `postsUpdate`) makes the handler return a nil result and a
`*HTTPError` with code 400 whose message is that decoding or parsing error, without
calling `app.db.BeginTx`. In the two update handlers the body is decoded first, so
the parsing error is the one reported when the body decodes. -/
theorem validation_precedes_transaction (app : DB) (err : GoError) :
    (usersCreate app (.error err)).rejected app err ∧
    (∀ id, (usersUpdate app id (.error err)).rejected app err) ∧
    (postsCreate app (.error err)).rejected app err ∧
    (∀ id, (postsUpdate app id (.error err)).rejected app err) ∧
    (usersGet app (.error err)).rejected app err ∧
    (∀ input, (usersUpdate app (.error err) (.ok input)).rejected app err) ∧
    (usersDelete app (.error err)).rejected app err ∧
    (postsGet app (.error err)).rejected app err ∧
    (∀ input, (postsUpdate app (.error err) (.ok input)).rejected app err) := by
  refine ⟨?_, fun id => ?_, ?_, fun id => ?_, ?_, fun input => ?_, ?_, ?_, fun input => ?_⟩ <;>
    simp [HandlerRun.rejected, HandlerRun.early, usersCreate, usersUpdate, postsCreate,
      postsUpdate, usersGet, usersDelete, postsGet, NewHTTPError, StatusBadRequest]


/-- C12 does not hold: for an `id` parameter that `uuid.Parse` rejects (here
"not-a-uuid", rejected with "invalid UUID length: 10"), `postsDelete` returns
`*HTTPError{404, "post does not exist"}` and `DELETE /api/posts/{id}` is answered with
status 404, while `usersDelete` returns the 400 with the parsing error. -/
theorem delete_post_bad_id_is_404 :
    (postsDelete fixtureDB (.error (.errorf "invalid UUID length: 10"))).ret =
      .returned (none, some (GoError.HTTPError 404 (.errorf "post does not exist"))) ∧
    DELETE_posts_id (fun _ => none) fixtureDB false (.error (.errorf "invalid UUID length: 10")) =
      .wrote [.errorMessage 404 "post does not exist"] ∧
    DELETE_users_id (fun _ => none) fixtureDB false (.error (.errorf "invalid UUID length: 10")) =
      .wrote [.errorMessage 400 "invalid UUID length: 10"] := by
  simp [DELETE_posts_id, DELETE_users_id, handleQuery, writeError, GoError.asHTTPError,
    GoError.Error, postsDelete, usersDelete, HandlerRun.early, NewHTTPError, StatusNotFound,
    StatusBadRequest]

/-! ## Update -/

theorem filter_eq_map_set {α : Type} (key : α → UUID) (f : α → α) (id : UUID)
    (hkey : ∀ r, key (f r) = key r) (rows : List α) :
    (rows.map (fun r => if key r = id then f r else r)).filter (fun r => key r = id) =
      (rows.filter (fun r => key r = id)).map f := by
  induction rows with
  | nil => rfl
  | cons a l ih =>
    by_cases ha : key a = id
    · simp [List.filter_cons, ha, hkey, ih]
    · simp [List.filter_cons, ha, ih]

theorem filter_ne_map_set {α : Type} (key : α → UUID) (f : α → α) (id : UUID)
    (hkey : ∀ r, key (f r) = key r) (rows : List α) :
    (rows.map (fun r => if key r = id then f r else r)).filter (fun r => key r ≠ id) =
      rows.filter (fun r => key r ≠ id) := by
  induction rows with
  | nil => rfl
  | cons a l ih =>
    simp only [ne_eq, decide_not] at ih ⊢
    by_cases ha : key a = id
    · simp [List.filter_cons, ha, hkey, ih]
    · simp [List.filter_cons, ha, ih]

theorem UsersUpdateTx_match (tx : Tx) (id : UUID) (uin : UserInput) (r0 : User)
    (rest : List User) (hf : tx.draw.1.fault = none)
    (h : tx.users.filter (fun r => r.Id = id) = r0 :: rest) :
    (UsersUpdateTx tx id (some uin)).1 =
      .returned (some (User.set tx.schema tx.draw.1.now uin.Name uin.Email r0), none) ∧
    (UsersUpdateTx tx id (some uin)).2.users = tx.users.map
      (fun u => if u.Id = id then User.set tx.schema tx.draw.1.now uin.Name uin.Email u else u) ∧
    (UsersUpdateTx tx id (some uin)).2.posts = tx.posts := by
  rcases tx with ⟨u, p, s, d, cs⟩
  simp only at h
  cases d with
  | nil =>
    simp [UsersUpdateTx, UsersUpdateTx.scan, Tx.updateUser, Tx.draw, Tx.called, Draw.quiet,
      Scan, h]
  | cons d ds =>
    simp only [Tx.draw] at hf
    simp [UsersUpdateTx, UsersUpdateTx.scan, Tx.updateUser, Tx.draw, Tx.called, Scan, h, hf]

theorem PostsUpdateTx_match (tx : Tx) (id : UUID) (pin : PostInput) (r0 : Post)
    (rest : List Post) (hf : tx.draw.1.fault = none)
    (h : tx.posts.filter (fun r => r.Id = id) = r0 :: rest)
    (hu : ∃ u ∈ tx.users, u.Id = pin.UserId) :
    (PostsUpdateTx tx id (some pin)).1 =
      .returned (some (Post.set tx.schema tx.draw.1.now pin.Title pin.Content pin.UserId r0),
        none) ∧
    (PostsUpdateTx tx id (some pin)).2.posts = tx.posts.map
      (fun q => if q.Id = id
        then Post.set tx.schema tx.draw.1.now pin.Title pin.Content pin.UserId q else q) ∧
    (PostsUpdateTx tx id (some pin)).2.users = tx.users := by
  rcases tx with ⟨u, p, s, d, cs⟩
  simp only at h hu
  have hany : u.any (fun q => q.Id = pin.UserId) = true := by
    simpa using hu
  cases d with
  | nil =>
    simp [PostsUpdateTx, PostsUpdateTx.scan, Tx.updatePost, Tx.draw, Tx.called, Draw.quiet,
      Scan, h, hany]
  | cons d ds =>
    simp only [Tx.draw] at hf
    simp [PostsUpdateTx, PostsUpdateTx.scan, Tx.updatePost, Tx.draw, Tx.called, Scan, h, hf,
      hany]


theorem UsersUpdateTx_existing (tx : Tx) (id : UUID) (uin : UserInput)
    (hf : tx.draw.1.fault = none) (hex : ∃ r ∈ tx.users, r.Id = id) :
    ∃ r0 ∈ tx.users, r0.Id = id ∧
      (UsersUpdateTx tx id (some uin)).1 =
        .returned (some (User.set tx.schema tx.draw.1.now uin.Name uin.Email r0), none) ∧
      (UsersUpdateTx tx id (some uin)).2.users.filter (fun r => r.Id = id) =
        (tx.users.filter (fun r => r.Id = id)).map
          (User.set tx.schema tx.draw.1.now uin.Name uin.Email) ∧
      (∃ rest, tx.users.filter (fun r => r.Id = id) = r0 :: rest) ∧
      (UsersUpdateTx tx id (some uin)).2.users.filter (fun r => r.Id ≠ id) =
        tx.users.filter (fun r => r.Id ≠ id) ∧
      (UsersUpdateTx tx id (some uin)).2.users.length = tx.users.length ∧
      (UsersUpdateTx tx id (some uin)).2.posts = tx.posts := by
  obtain ⟨r0, rest, h⟩ := filter_id_ne_nil User.Id tx.users id hex
  obtain ⟨hm, hk⟩ := mem_of_filter_id_eq_cons User.Id tx.users id r0 rest h
  obtain ⟨h1, h2, h3⟩ := UsersUpdateTx_match tx id uin r0 rest hf h
  refine ⟨r0, hm, hk, h1, ?_, ⟨rest, h⟩, ?_, ?_, h3⟩
  · rw [h2]
    exact filter_eq_map_set User.Id
      (User.set tx.schema tx.draw.1.now uin.Name uin.Email) id (fun _ => rfl) tx.users
  · rw [h2]
    exact filter_ne_map_set User.Id
      (User.set tx.schema tx.draw.1.now uin.Name uin.Email) id (fun _ => rfl) tx.users
  · rw [h2, List.length_map]

theorem PostsUpdateTx_existing (tx : Tx) (id : UUID) (pin : PostInput)
    (hf : tx.draw.1.fault = none) (hex : ∃ r ∈ tx.posts, r.Id = id)
    (hu : ∃ u ∈ tx.users, u.Id = pin.UserId) :
    ∃ q0 ∈ tx.posts, q0.Id = id ∧
      (PostsUpdateTx tx id (some pin)).1 =
        .returned
          (some (Post.set tx.schema tx.draw.1.now pin.Title pin.Content pin.UserId q0), none) ∧
      (PostsUpdateTx tx id (some pin)).2.posts.filter (fun r => r.Id = id) =
        (tx.posts.filter (fun r => r.Id = id)).map
          (Post.set tx.schema tx.draw.1.now pin.Title pin.Content pin.UserId) ∧
      (∃ rest, tx.posts.filter (fun r => r.Id = id) = q0 :: rest) ∧
      (PostsUpdateTx tx id (some pin)).2.posts.filter (fun r => r.Id ≠ id) =
        tx.posts.filter (fun r => r.Id ≠ id) ∧
      (PostsUpdateTx tx id (some pin)).2.posts.length = tx.posts.length ∧
      (PostsUpdateTx tx id (some pin)).2.users = tx.users := by
  obtain ⟨q0, rest, h⟩ := filter_id_ne_nil Post.Id tx.posts id hex
  obtain ⟨hm, hk⟩ := mem_of_filter_id_eq_cons Post.Id tx.posts id q0 rest h
  obtain ⟨h1, h2, h3⟩ := PostsUpdateTx_match tx id pin q0 rest hf h hu
  refine ⟨q0, hm, hk, h1, ?_, ⟨rest, h⟩, ?_, ?_, h3⟩
  · rw [h2]
    exact filter_eq_map_set Post.Id
      (Post.set tx.schema tx.draw.1.now pin.Title pin.Content pin.UserId) id (fun _ => rfl) tx.posts
  · rw [h2]
    exact filter_ne_map_set Post.Id
      (Post.set tx.schema tx.draw.1.now pin.Title pin.Content pin.UserId) id (fun _ => rfl) tx.posts
  · rw [h2, List.length_map]

/-- C13 does not hold as stated: at the fixture of the tests (`TestUsersUpdateTx`,
"Update 1 user"), in a schema without a trigger on `updated_at`, `UsersUpdateTx` on the
existing `UserId2` returns with a nil error an entity whose `UpdatedAt` is nil, and so
does `PostsUpdateTx` on `PostId2`: the `UPDATE` statements set `name`, `email` (`title`,
`content`, `user_id`) and nothing else. -/
theorem update_leaves_updated_at_absent :
    (∃ u, (UsersUpdateTx fixtureDB.begin UserId2
        (some ⟨"user-2-updated", "user-2-updated"⟩)).1 = .returned (some u, none) ∧
      u.UpdatedAt = none) ∧
    (∃ q, (PostsUpdateTx fixtureDB.begin PostId2
        (some ⟨"title-2-updated", "content-2-updated", UserId2⟩)).1 =
          .returned (some q, none) ∧
      q.UpdatedAt = none) := by
  constructor
  · obtain ⟨r0, hm, -, h1, -⟩ := UsersUpdateTx_existing fixtureDB.begin UserId2
      ⟨"user-2-updated", "user-2-updated"⟩ rfl (by decide)
    refine ⟨_, h1, ?_⟩
    have hall : ∀ r ∈ fixtureDB.begin.users, r.UpdatedAt = none := by decide
    simp only [User.set]
    exact hall r0 hm
  · obtain ⟨q0, hm, -, h1, -⟩ := PostsUpdateTx_existing fixtureDB.begin PostId2
      ⟨"title-2-updated", "content-2-updated", UserId2⟩ rfl (by decide) (by decide)
    refine ⟨_, h1, ?_⟩
    have hall : ∀ r ∈ fixtureDB.begin.posts, r.UpdatedAt = none := by decide
    simp only [Post.set]
    exact hall q0 hm


/-- C13, amended: for an existing identifier and a statement that is not answered by a
failure, the entity `UsersUpdateTx` (`PostsUpdateTx`, the new `user_id` existing)
returns carries the `updated_at` the row has after the `UPDATE`: the instant of the
update when the schema sets `updated_at` on update, and otherwise the value the row
had before, the statement itself not naming the column. -/
theorem update_timestamp_by_schema (tx : Tx) (id : UUID) (uin : UserInput) (pin : PostInput)
    (hf : tx.draw.1.fault = none) :
    ((∃ r ∈ tx.users, r.Id = id) →
      ∃ r0 ∈ tx.users, r0.Id = id ∧ ∃ u,
        (UsersUpdateTx tx id (some uin)).1 = .returned (some u, none) ∧
        u.UpdatedAt =
          if tx.schema.touchUpdatedAt then some tx.draw.1.now else r0.UpdatedAt) ∧
    ((∃ r ∈ tx.posts, r.Id = id) → (∃ u ∈ tx.users, u.Id = pin.UserId) →
      ∃ q0 ∈ tx.posts, q0.Id = id ∧ ∃ q,
        (PostsUpdateTx tx id (some pin)).1 = .returned (some q, none) ∧
        q.UpdatedAt =
          if tx.schema.touchUpdatedAt then some tx.draw.1.now else q0.UpdatedAt) := by
  constructor
  · intro hex
    obtain ⟨r0, hm, hk, h1, -⟩ := UsersUpdateTx_existing tx id uin hf hex
    exact ⟨r0, hm, hk, _, h1, rfl⟩
  · intro hex hu
    obtain ⟨q0, hm, hk, h1, -⟩ := PostsUpdateTx_existing tx id pin hf hex hu
    exact ⟨q0, hm, hk, _, h1, rfl⟩

/-- C13, amended, at the fixture of the tests: the update of `UserId2` is not answered
by a failure and returns an entity with a nil error. -/
theorem update_timestamp_by_schema_witness :
    fixtureDB.begin.draw.1.fault = none ∧ (∃ r ∈ fixtureDB.begin.users, r.Id = UserId2) ∧
    ∃ r0 ∈ fixtureDB.begin.users, r0.Id = UserId2 ∧ ∃ u,
      (UsersUpdateTx fixtureDB.begin UserId2 (some ⟨"user-2-updated", "user-2-updated"⟩)).1 =
        .returned (some u, none) ∧
      u.UpdatedAt =
        if fixtureDB.begin.schema.touchUpdatedAt then some fixtureDB.begin.draw.1.now
        else r0.UpdatedAt :=
  have hex : ∃ r ∈ fixtureDB.begin.users, r.Id = UserId2 := by decide
  ⟨rfl, hex, (update_timestamp_by_schema fixtureDB.begin UserId2
    ⟨"user-2-updated", "user-2-updated"⟩ ⟨"t", "c", UserId2⟩ rfl).1 hex⟩

/-- C14: for an existing identifier `id` and a statement that is not answered by a
failure, `UsersUpdateTx` returns with a nil error an entity whose identifier is `id`,
whose creation timestamp is the one of the row with that identifier, and whose name and
email are the input's; `UsersGetTx` on `id` in the same transaction returns that
entity; the rows with another identifier are the same as before, the table has as many
rows as before, and `posts` is unchanged. Likewise `PostsUpdateTx` (the new `user_id`
existing) with title, content and `user_id`, and `PostsGetTx`. -/
theorem update_frame (tx : Tx) (id : UUID) (uin : UserInput) (pin : PostInput)
    (hf : tx.draw.1.fault = none) :
    ((∃ r ∈ tx.users, r.Id = id) →
      ∃ r0 ∈ tx.users, r0.Id = id ∧ ∃ u,
        (UsersUpdateTx tx id (some uin)).1 = .returned (some u, none) ∧
        u.Id = id ∧ u.CreatedAt = r0.CreatedAt ∧ u.Name = uin.Name ∧ u.Email = uin.Email ∧
        ((UsersUpdateTx tx id (some uin)).2.draw.1.fault = none →
          (UsersGetTx (UsersUpdateTx tx id (some uin)).2 id).1 = (some u, none)) ∧
        (UsersUpdateTx tx id (some uin)).2.users.filter (fun r => r.Id ≠ id) =
          tx.users.filter (fun r => r.Id ≠ id) ∧
        (UsersUpdateTx tx id (some uin)).2.users.length = tx.users.length ∧
        (UsersUpdateTx tx id (some uin)).2.posts = tx.posts) ∧
    ((∃ r ∈ tx.posts, r.Id = id) → (∃ u ∈ tx.users, u.Id = pin.UserId) →
      ∃ q0 ∈ tx.posts, q0.Id = id ∧ ∃ q,
        (PostsUpdateTx tx id (some pin)).1 = .returned (some q, none) ∧
        q.Id = id ∧ q.CreatedAt = q0.CreatedAt ∧ q.Title = pin.Title ∧
        q.Content = pin.Content ∧ q.UserId = pin.UserId ∧
        ((PostsUpdateTx tx id (some pin)).2.draw.1.fault = none →
          (PostsGetTx (PostsUpdateTx tx id (some pin)).2 id).1 = (some q, none)) ∧
        (PostsUpdateTx tx id (some pin)).2.posts.filter (fun r => r.Id ≠ id) =
          tx.posts.filter (fun r => r.Id ≠ id) ∧
        (PostsUpdateTx tx id (some pin)).2.posts.length = tx.posts.length ∧
        (PostsUpdateTx tx id (some pin)).2.users = tx.users) := by
  constructor
  · intro hex
    obtain ⟨r0, hm, hk, h1, h2, ⟨rest, h3⟩, h4, h5, h6⟩ :=
      UsersUpdateTx_existing tx id uin hf hex
    refine ⟨r0, hm, hk, _, h1, hk, rfl, rfl, rfl, ?_, h4, h5, h6⟩
    intro hf1
    refine UsersGetTx_first _ id _
      (rest.map (User.set tx.schema tx.draw.1.now uin.Name uin.Email)) hf1 ?_
    rw [h2, h3, List.map_cons]
  · intro hex hu
    obtain ⟨q0, hm, hk, h1, h2, ⟨rest, h3⟩, h4, h5, h6⟩ :=
      PostsUpdateTx_existing tx id pin hf hex hu
    refine ⟨q0, hm, hk, _, h1, hk, rfl, rfl, rfl, rfl, ?_, h4, h5, h6⟩
    intro hf1
    refine PostsGetTx_first _ id _
      (rest.map (Post.set tx.schema tx.draw.1.now pin.Title pin.Content pin.UserId)) hf1 ?_
    rw [h2, h3, List.map_cons]

/-- C14 at the fixture of the tests (`TestUsersUpdateTx`, "Update 1 user"): the update
of `UserId2` returns an entity with the identifier and the input's name. -/
theorem update_frame_witness :
    fixtureDB.begin.draw.1.fault = none ∧ (∃ r ∈ fixtureDB.begin.users, r.Id = UserId2) ∧
    ∃ u, (UsersUpdateTx fixtureDB.begin UserId2 (some ⟨"user-2-updated", "user-2-updated"⟩)).1 =
        .returned (some u, none) ∧ u.Id = UserId2 ∧ u.Name = "user-2-updated" :=
  have hex : ∃ r ∈ fixtureDB.begin.users, r.Id = UserId2 := by decide
  ⟨rfl, hex,
    match (update_frame fixtureDB.begin UserId2 ⟨"user-2-updated", "user-2-updated"⟩
      ⟨"t", "c", UserId2⟩ rfl).1 hex with
    | ⟨_, _, _, u, h1, h2, _, h4, _⟩ => ⟨u, h1, h2, h4⟩⟩


/-! ## Delete -/

theorem filter_ne_eq_erase {α : Type} [DecidableEq α] (key : α → UUID) (rows : List α)
    (r0 : α) (hnd : (rows.map key).Nodup) (hr : r0 ∈ rows) :
    rows.filter (fun r => key r ≠ key r0) = rows.erase r0 := by
  induction rows with
  | nil => cases hr
  | cons a l ih =>
    simp only [List.map_cons, List.nodup_cons, List.mem_map, not_exists, not_and] at hnd
    obtain ⟨ha, hl⟩ := hnd
    rcases List.mem_cons.mp hr with h | h
    · subst h
      have hself := filter_id_ne_self key l (key r0) (fun x hx => ha x hx)
      simp only [ne_eq, decide_not] at hself ⊢
      simp [List.filter_cons, hself]
    · have hne : key a ≠ key r0 := fun he => ha r0 h he.symm
      have hne2 : a ≠ r0 := fun he => hne (by rw [he])
      have ih2 := ih hl h
      simp only [ne_eq, decide_not] at ih2 ⊢
      simp [List.filter_cons, hne, hne2, ih2]

theorem UsersDeleteTx_match (tx : Tx) (id : UUID) (r0 : User) (rest : List User)
    (hf : tx.draw.1.fault = none) (h : tx.users.filter (fun r => r.Id = id) = r0 :: rest)
    (hfk : tx.schema.cascadeDelete = true ∨ ∀ p ∈ tx.posts, p.UserId ≠ id) :
    (UsersDeleteTx tx id).1 = (some r0, none) ∧
    (UsersDeleteTx tx id).2.users = tx.users.filter (fun r => r.Id ≠ id) ∧
    (UsersDeleteTx tx id).2.posts = tx.posts.filter (fun p => p.UserId ≠ id) := by
  rcases tx with ⟨u, p, s, d, cs⟩
  simp only at h hfk
  by_cases hp : ∃ x ∈ p, x.UserId = id
  · have hc : s.cascadeDelete = true := by
      rcases hfk with hc | hc
      · exact hc
      · obtain ⟨x, hx, he⟩ := hp
        exact absurd he (hc x hx)
    cases d with
    | nil =>
      simp [UsersDeleteTx, UsersDeleteTx.scan, Tx.deleteUser, Tx.draw, Tx.called, Draw.quiet,
        Scan, h, hp, hc]
    | cons d ds =>
      simp only [Tx.draw] at hf
      simp [UsersDeleteTx, UsersDeleteTx.scan, Tx.deleteUser, Tx.draw, Tx.called, Scan, h, hp,
        hc, hf]
  · have hno : ∀ x ∈ p, x.UserId ≠ id := fun x hx he => hp ⟨x, hx, he⟩
    have hself := filter_id_ne_self Post.UserId p id hno
    simp only [ne_eq, decide_not] at hself
    cases d with
    | nil =>
      simp [UsersDeleteTx, UsersDeleteTx.scan, Tx.deleteUser, Tx.draw, Tx.called, Draw.quiet,
        Scan, h, hp, hself]
    | cons d ds =>
      simp only [Tx.draw] at hf
      simp [UsersDeleteTx, UsersDeleteTx.scan, Tx.deleteUser, Tx.draw, Tx.called, Scan, h, hp,
        hf, hself]

theorem PostsDeleteTx_match (tx : Tx) (id : UUID) (q0 : Post) (rest : List Post)
    (hf : tx.draw.1.fault = none) (h : tx.posts.filter (fun r => r.Id = id) = q0 :: rest) :
    (PostsDeleteTx tx id).1 = (some q0, none) ∧
    (PostsDeleteTx tx id).2.posts = tx.posts.filter (fun r => r.Id ≠ id) ∧
    (PostsDeleteTx tx id).2.users = tx.users := by
  rcases tx with ⟨u, p, s, d, cs⟩
  simp only at h
  cases d with
  | nil =>
    simp [PostsDeleteTx, PostsDeleteTx.scan, Tx.deletePost, Tx.draw, Tx.called, Draw.quiet,
      Scan, h]
  | cons d ds =>
    simp only [Tx.draw] at hf
    simp [PostsDeleteTx, PostsDeleteTx.scan, Tx.deletePost, Tx.draw, Tx.called, Scan, h, hf]

theorem not_mem_filter_ne {α : Type} (key : α → UUID) (rows : List α) (id : UUID) :
    ∀ r ∈ rows.filter (fun r => key r ≠ id), key r ≠ id := by
  intro r hr
  have := (List.mem_filter.mp hr).2
  simpa using this


/-- C15: for an existing identifier `id` and a statement that is not answered by a
failure, `PostsDeleteTx` returns, with a nil error, the row of `posts` with that
identifier as it was; the table afterwards holds the rows with another identifier and
no others (the table without that row, the identifiers of a table being distinct),
`users` is unchanged, and a following `PostsGetTx` or `PostsDeleteTx` of `id` in the same
transaction returns `(nil, nil)`. The same holds of `UsersDeleteTx`, `UsersGetTx` and the
table `users` when no post refers to the user or the schema cascades the deletion, in
which case the posts of the user are removed with it. -/
theorem delete_removes_row (tx : Tx) (id : UUID) (hf : tx.draw.1.fault = none) :
    ((∃ r ∈ tx.users, r.Id = id) →
      (tx.schema.cascadeDelete = true ∨ ∀ p ∈ tx.posts, p.UserId ≠ id) →
      ∃ r0 ∈ tx.users, r0.Id = id ∧
        (UsersDeleteTx tx id).1 = (some r0, none) ∧
        (UsersDeleteTx tx id).2.users = tx.users.filter (fun r => r.Id ≠ id) ∧
        ((tx.users.map User.Id).Nodup → (UsersDeleteTx tx id).2.users = tx.users.erase r0) ∧
        (UsersDeleteTx tx id).2.posts = tx.posts.filter (fun p => p.UserId ≠ id) ∧
        ((UsersDeleteTx tx id).2.draw.1.fault = none →
          (UsersGetTx (UsersDeleteTx tx id).2 id).1 = (none, none) ∧
          (UsersDeleteTx (UsersDeleteTx tx id).2 id).1 = (none, none))) ∧
    ((∃ r ∈ tx.posts, r.Id = id) →
      ∃ q0 ∈ tx.posts, q0.Id = id ∧
        (PostsDeleteTx tx id).1 = (some q0, none) ∧
        (PostsDeleteTx tx id).2.posts = tx.posts.filter (fun r => r.Id ≠ id) ∧
        ((tx.posts.map Post.Id).Nodup → (PostsDeleteTx tx id).2.posts = tx.posts.erase q0) ∧
        (PostsDeleteTx tx id).2.users = tx.users ∧
        ((PostsDeleteTx tx id).2.draw.1.fault = none →
          (PostsGetTx (PostsDeleteTx tx id).2 id).1 = (none, none) ∧
          (PostsDeleteTx (PostsDeleteTx tx id).2 id).1 = (none, none))) := by
  constructor
  · intro hex hfk
    obtain ⟨r0, rest, h⟩ := filter_id_ne_nil User.Id tx.users id hex
    obtain ⟨hm, hk⟩ := mem_of_filter_id_eq_cons User.Id tx.users id r0 rest h
    obtain ⟨h1, h2, h3⟩ := UsersDeleteTx_match tx id r0 rest hf h hfk
    refine ⟨r0, hm, hk, h1, h2, ?_, h3, ?_⟩
    · intro hnd
      rw [h2, ← hk]
      exact filter_ne_eq_erase User.Id tx.users r0 hnd hm
    · intro hf1
      have hno : ∀ r ∈ (UsersDeleteTx tx id).2.users, r.Id ≠ id := by
        rw [h2]
        exact not_mem_filter_ne User.Id tx.users id
      exact ⟨((UsersGetTx_contract _ id).1 hno hf1).1, ((UsersDeleteTx_contract _ id).1 hno hf1).1⟩
  · intro hex
    obtain ⟨q0, rest, h⟩ := filter_id_ne_nil Post.Id tx.posts id hex
    obtain ⟨hm, hk⟩ := mem_of_filter_id_eq_cons Post.Id tx.posts id q0 rest h
    obtain ⟨h1, h2, h3⟩ := PostsDeleteTx_match tx id q0 rest hf h
    refine ⟨q0, hm, hk, h1, h2, ?_, h3, ?_⟩
    · intro hnd
      rw [h2, ← hk]
      exact filter_ne_eq_erase Post.Id tx.posts q0 hnd hm
    · intro hf1
      have hno : ∀ r ∈ (PostsDeleteTx tx id).2.posts, r.Id ≠ id := by
        rw [h2]
        exact not_mem_filter_ne Post.Id tx.posts id
      exact ⟨((PostsGetTx_contract _ id).1 hno hf1).1, ((PostsDeleteTx_contract _ id).1 hno hf1).1⟩

/-- C15 at the fixture of the tests (`TestPostsDeleteTx`, `TestUsersDeleteTx`): deleting
`PostId2` returns the fixture row with a nil error, and deleting `UserId2`, which
`PostId2` refers to, returns a user with a nil error in the cascading schema. -/
theorem delete_removes_row_witness :
    fixtureDB.begin.draw.1.fault = none ∧
    (∃ q0 ∈ fixtureDB.begin.posts, q0.Id = PostId2 ∧
      (PostsDeleteTx fixtureDB.begin PostId2).1 = (some q0, none)) ∧
    (∃ r0 ∈ fixtureDB.begin.users, r0.Id = UserId2 ∧
      (UsersDeleteTx fixtureDB.begin UserId2).1 = (some r0, none)) :=
  ⟨rfl,
    match (delete_removes_row fixtureDB.begin PostId2 rfl).2 (by decide) with
    | ⟨q0, hm, hk, h1, _⟩ => ⟨q0, hm, hk, h1⟩,
    match (delete_removes_row fixtureDB.begin UserId2 rfl).1 (by decide) (Or.inl rfl) with
    | ⟨r0, hm, hk, h1, _⟩ => ⟨r0, hm, hk, h1⟩⟩


/-! ## Panics and the race with cancellation -/

/-- C16 does not hold: `POST /api/users` with the body `null` makes `usersCreate` panic
in the goroutine `handleMutation` starts for it; `recoverPanic`, whose `recover` runs on
the goroutine of the request, returns what `next.ServeHTTP` served, which is the end of
the process and not a response with status 500. A panic on the goroutine of the
request is the one `recoverPanic` answers with `serverError`. -/
theorem handler_panic_ends_process :
    (usersCreate fixtureDB (.ok none)).ret = .panicked nilDeref ∧
    recoverPanic (.returned (POST_users (fun _ => none) fixtureDB false (.ok (.ok none)))) =
      .crashed nilDeref ∧
    (∀ msg, recoverPanic (Ret.panicked msg : Ret (Served (Option User))) =
      .wrote [.serverError (.errorf msg)]) := by
  refine ⟨?_, ?_, fun msg => rfl⟩
  · simp [usersCreate, beginTx, HandlerRun.after, UsersCreateTx, fixtureDB, DB.begin]
  · simp [recoverPanic, POST_users, handleMutation, usersCreate, beginTx, HandlerRun.after,
      UsersCreateTx, fixtureDB, DB.begin]

/-- C17: for a handler that returns (so that `done` is closed) and a body that was
read, `handleQuery` and `handleMutation` write nothing when the select takes
`ctx.Done()`, and otherwise exactly one response: a classified error, a server error,
`notFound`, or the result as JSON with status 200. -/
theorem one_response_per_request {P B T : Type} (jq : T → Option GoError)
    (jm : Option T → Option GoError) (hq : P → Ret (T × Option GoError))
    (hm : P → B → Ret (Option T × Option GoError)) (p : P) (body : B)
    (outq : T × Option GoError) (outm : Option T × Option GoError)
    (hoq : hq p = .returned outq) (hom : hm p body = .returned outm) :
    handleQuery jq hq true p = .wrote [] ∧
    handleMutation jm hm true p (.ok body) = .wrote [] ∧
    (∃ w, handleQuery jq hq false p = .wrote [w] ∧
      ((∃ c m, w = .errorMessage c m) ∨ (∃ e, w = .serverError e) ∨
        (∃ d, w = .JSON 200 d))) ∧
    (∃ w, handleMutation jm hm false p (.ok body) = .wrote [w] ∧
      ((∃ c m, w = .errorMessage c m) ∨ (∃ e, w = .serverError e) ∨ w = .notFound ∨
        (∃ d, w = .JSON 200 d))) := by
  obtain ⟨rq, eq⟩ := outq
  obtain ⟨rm, em⟩ := outm
  refine ⟨by simp [handleQuery, hoq], by simp [handleMutation, hom], ?_, ?_⟩
  · cases eq with
    | some e =>
      cases he : e.asHTTPError with
      | none => simp [handleQuery, hoq, writeError, he]
      | some cm => simp [handleQuery, hoq, writeError, he]
    | none =>
      cases hj : jq rq with
      | none => simp [handleQuery, hoq, writeJSON, hj, StatusOK]
      | some e => simp [handleQuery, hoq, writeJSON, hj]
  · cases em with
    | some e =>
      cases he : e.asHTTPError with
      | none => simp [handleMutation, hom, writeError, he]
      | some cm => simp [handleMutation, hom, writeError, he]
    | none =>
      cases rm with
      | none => simp [handleMutation, hom]
      | some r =>
        cases hj : jm (some r) with
        | none => simp [handleMutation, hom, writeJSON, hj, StatusOK]
        | some e => simp [handleMutation, hom, writeJSON, hj]

/-- C17 at the fixture of the tests: `GET /api/users/{id}` for `UserId1` writes nothing
when the select takes `ctx.Done()`. -/
theorem one_response_per_request_witness :
    handleQuery (fun _ => none) (fun id => (usersGet fixtureDB id).ret) true
      (.ok UserId1) = .wrote [] :=
  (one_response_per_request (fun _ => none) (fun _ => none)
    (fun id => (usersGet fixtureDB id).ret)
    (fun _ (_ : Unit) => Ret.returned (none, none))
    (.ok UserId1) ()
    (some ⟨UserId1, "email-1", "user-1", 1, none⟩, none)
    (none, none)
    (by
      simp [usersGet, beginTx, HandlerRun.after, UsersGetTx, UsersGetTx.scan, Tx.selectUser,
        Tx.draw, Tx.called, DB.begin, Draw.quiet, Scan, fixtureDB, UserId1, UserId2])
    rfl).1

/-- C18 does not hold: the JSON literal `null` decodes without error into a nil
`*UserInput` / `*PostInput`, and with it (at the fixture of the tests, for the update
handlers with a well-formed identifier) `usersCreate` and `usersUpdate` reach
`UsersCreateTx` / `UsersUpdateTx`, which dereference it, and `postsCreate` and
`postsUpdate` dereference it at `input.UserId`: each of the four panics instead of
returning a classified 400 error. -/
theorem null_body_is_dereferenced :
    ((usersCreate fixtureDB (.ok none)).ret = .panicked nilDeref ∧
      (usersCreate fixtureDB (.ok none)).calls = [.UsersCreateTx]) ∧
    ((usersUpdate fixtureDB (.ok UserId1) (.ok none)).ret = .panicked nilDeref ∧
      (usersUpdate fixtureDB (.ok UserId1) (.ok none)).calls = [.UsersUpdateTx]) ∧
    (postsCreate fixtureDB (.ok none)).ret = .panicked nilDeref ∧
    (postsUpdate fixtureDB (.ok PostId1) (.ok none)).ret = .panicked nilDeref := by
  simp [usersCreate, usersUpdate, postsCreate, postsUpdate, beginTx, HandlerRun.after,
    UsersCreateTx, UsersUpdateTx, Tx.called, fixtureDB, DB.begin]


/-! ## Result or error -/

theorem exclusive_after {α : Type} (app : DB) (fn : txFn (Option α))
    (hfn : ∀ tx tx1 v, fn tx none = (.returned none, tx1, v) → v ≠ none) :
    exclusive (HandlerRun.after (beginTx app fn none)).ret := by
  intro result err h
  unfold beginTx HandlerRun.after at h
  cases ho : app.openErr with
  | some e =>
    simp [ho] at h
    obtain ⟨h1, h2⟩ := h
    subst h1 h2
    simp
  | none =>
    cases hb : app.beginErr with
    | some e =>
      simp [ho, hb] at h
      obtain ⟨h1, h2⟩ := h
      subst h1 h2
      simp
    | none =>
      rcases hf : fn app.begin none with ⟨r, tx1, v⟩
      cases r with
      | panicked msg => simp [ho, hb, hf] at h
      | returned e =>
        cases e with
        | some e =>
          simp [ho, hb, hf] at h
          obtain ⟨h1, h2⟩ := h
          subst h1 h2
          simp
        | none =>
          have hv := hfn _ _ _ hf
          cases hc : app.commitErr with
          | some e =>
            simp [ho, hb, hf, hc] at h
            obtain ⟨h1, h2⟩ := h
            subst h1 h2
            simp
          | none =>
            simp [ho, hb, hf, hc] at h
            obtain ⟨h1, h2⟩ := h
            subst h1 h2
            simpa using hv

theorem exclusive_early {T : Type} (app : DB) (err : GoError) :
    exclusive (HandlerRun.early app (none : Option T) err).ret := by
  intro result e h
  simp [HandlerRun.early] at h
  obtain ⟨h1, h2⟩ := h
  subst h1 h2
  simp

theorem UsersCreateTx_some (tx tx1 : Tx) (input : Option UserInput) (r : Option User)
    (e : Option GoError) (h : UsersCreateTx tx input = (.returned (r, e), tx1)) : r ≠ none := by
  cases input with
  | none => simp [UsersCreateTx] at h
  | some inp =>
    simp only [UsersCreateTx, Prod.mk.injEq, Ret.returned.injEq] at h
    rw [← h.1.1]
    simp

theorem PostsCreateTx_some (tx tx1 : Tx) (input : Option PostInput) (r : Option Post)
    (e : Option GoError) (h : PostsCreateTx tx input = (.returned (r, e), tx1)) : r ≠ none := by
  cases input with
  | none => simp [PostsCreateTx] at h
  | some inp =>
    simp only [PostsCreateTx, Prod.mk.injEq, Ret.returned.injEq] at h
    rw [← h.1.1]
    simp

theorem usersCreate_exclusive (app : DB) (body : Decoded UserInput) :
    exclusive (usersCreate app body).ret := by
  unfold usersCreate
  cases body with
  | error e => exact exclusive_early app _
  | ok input =>
    refine exclusive_after app _ ?_
    intro tx tx1 v h
    rcases hres : UsersCreateTx tx input with ⟨(⟨r, e⟩ | msg), tx2⟩
    · have hr := UsersCreateTx_some tx tx2 input r e hres
      cases e with
      | some e => simp [hres] at h
      | none =>
        simp [hres] at h
        rw [← h.2]
        exact hr
    · simp [hres] at h

theorem usersUpdate_exclusive (app : DB) (id : Except GoError UUID) (body : Decoded UserInput) :
    exclusive (usersUpdate app id body).ret := by
  unfold usersUpdate
  cases body with
  | error e => exact exclusive_early app _
  | ok input =>
    cases id with
    | error e => exact exclusive_early app _
    | ok id =>
      refine exclusive_after app _ ?_
      intro tx tx1 v h
      rcases hres : UsersUpdateTx tx id input with ⟨(⟨r, e⟩ | msg), tx2⟩
      · cases e with
        | some e => simp [hres] at h
        | none =>
          cases r with
          | none => simp [hres] at h
          | some u =>
            simp [hres] at h
            rw [← h.2]
            simp
      · simp [hres] at h

theorem postsCreate_exclusive (app : DB) (body : Decoded PostInput) :
    exclusive (postsCreate app body).ret := by
  unfold postsCreate
  cases body with
  | error e => exact exclusive_early app _
  | ok input =>
    refine exclusive_after app _ ?_
    intro tx tx1 v h
    cases input with
    | none => simp at h
    | some inp =>
      rcases hget : UsersGetTx tx inp.UserId with ⟨⟨u, e⟩, tx2⟩
      cases e with
      | some e => simp [hget] at h
      | none =>
        cases u with
        | none => simp [hget] at h
        | some u =>
          rcases hres : PostsCreateTx tx2 (some inp) with ⟨(⟨r, e⟩ | msg), tx3⟩
          · have hr := PostsCreateTx_some tx2 tx3 (some inp) r e hres
            cases e with
            | some e => simp [hget, hres] at h
            | none =>
              simp [hget, hres] at h
              rw [← h.2]
              exact hr
          · simp [hget, hres] at h

theorem postsUpdate_exclusive (app : DB) (id : Except GoError UUID) (body : Decoded PostInput) :
    exclusive (postsUpdate app id body).ret := by
  unfold postsUpdate
  cases body with
  | error e => exact exclusive_early app _
  | ok input =>
    cases id with
    | error e => exact exclusive_early app _
    | ok id =>
      refine exclusive_after app _ ?_
      intro tx tx1 v h
      cases input with
      | none => simp at h
      | some inp =>
        rcases hget : UsersGetTx tx inp.UserId with ⟨⟨u, e⟩, tx2⟩
        cases e with
        | some e => simp [hget] at h
        | none =>
          cases u with
          | none => simp [hget] at h
          | some u =>
            rcases hres : PostsUpdateTx tx2 id (some inp) with ⟨(⟨r, e⟩ | msg), tx3⟩
            · cases e with
              | some e => simp [hget, hres] at h
              | none =>
                cases r with
                | none => simp [hget, hres] at h
                | some q =>
                  simp [hget, hres] at h
                  rw [← h.2]
                  simp
            · simp [hget, hres] at h


theorem notFound_not_written {P B T : Type} (jm : Option T → Option GoError)
    (hm : P → B → Ret (Option T × Option GoError)) (cancelled : Bool) (p : P)
    (body : Except GoError B) (hex : ∀ b, exclusive (hm p b)) :
    Write.notFound ∉ (handleMutation jm hm cancelled p body).writes := by
  unfold handleMutation
  cases body with
  | error e => simp [Served.writes]
  | ok b =>
    cases hr : hm p b with
    | panicked msg => simp [Served.writes, hr]
    | returned out =>
      obtain ⟨r, e⟩ := out
      have hx := hex b r e hr
      cases cancelled with
      | true => simp [Served.writes, hr]
      | false =>
        cases e with
        | some e =>
          cases he : e.asHTTPError <;> simp [Served.writes, writeError, he, hr]
        | none =>
          cases r with
          | none => simp at hx
          | some v =>
            cases hj : jm (some v) <;> simp [Served.writes, writeJSON, hj, hr]

/-- C19: every outcome that `usersCreate`, `usersUpdate`, `postsCreate` or `postsUpdate`
returns has exactly one of result and error non-nil (the result is non-nil if and only
if the error is nil), whatever the database answers; hence none of the four routes
registered through `handleMutation` ever writes `notFound`: the `result == nil` branch
is not taken. -/
theorem mutation_outcome_exclusive (app : DB) (id : Except GoError UUID)
    (ubody : Decoded UserInput) (pbody : Decoded PostInput)
    (ju : Option User → Option GoError) (jp : Option Post → Option GoError) :
    exclusive (usersCreate app ubody).ret ∧
    exclusive (usersUpdate app id ubody).ret ∧
    exclusive (postsCreate app pbody).ret ∧
    exclusive (postsUpdate app id pbody).ret ∧
    (∀ cancelled body, Write.notFound ∉ (POST_users ju app cancelled body).writes) ∧
    (∀ cancelled body, Write.notFound ∉ (PUT_users_id ju app cancelled id body).writes) ∧
    (∀ cancelled body, Write.notFound ∉ (POST_posts jp app cancelled body).writes) ∧
    (∀ cancelled body, Write.notFound ∉ (PUT_posts_id jp app cancelled id body).writes) :=
  ⟨usersCreate_exclusive app ubody, usersUpdate_exclusive app id ubody,
    postsCreate_exclusive app pbody, postsUpdate_exclusive app id pbody,
    fun cancelled body => notFound_not_written ju _ cancelled () body
      (fun b => usersCreate_exclusive app b),
    fun cancelled body => notFound_not_written ju _ cancelled id body
      (fun b => usersUpdate_exclusive app id b),
    fun cancelled body => notFound_not_written jp _ cancelled () body
      (fun b => postsCreate_exclusive app b),
    fun cancelled body => notFound_not_written jp _ cancelled id body
      (fun b => postsUpdate_exclusive app id b)⟩

/-- C19 at the fixture of the tests: `PUT /api/users/{id}` for the identifier the tests
use as missing does not write `notFound` (its 404 is the classified error of the unit
of work), and the outcome of `usersUpdate` there has one of result and error non-nil. -/
theorem mutation_outcome_exclusive_witness :
    Write.notFound ∉ (PUT_users_id (fun _ => none) fixtureDB false (.ok missingId)
      (.ok (.ok (some ⟨"n", "e"⟩)))).writes ∧
    exclusive (usersUpdate fixtureDB (.ok missingId) (.ok (some ⟨"n", "e"⟩))).ret :=
  ⟨(mutation_outcome_exclusive fixtureDB (.ok missingId) (.ok (some ⟨"n", "e"⟩))
      (.ok none) (fun _ => none) (fun _ => none)).2.2.2.2.2.1 false
      (.ok (.ok (some ⟨"n", "e"⟩))),
    (mutation_outcome_exclusive fixtureDB (.ok missingId) (.ok (some ⟨"n", "e"⟩))
      (.ok none) (fun _ => none) (fun _ => none)).2.1⟩

/-! ## The iteration error of get-all -/

theorem scanRows_err {α : Type} (items : List (Except GoError α)) (acc : List α)
    (r : Option (List α)) (e : GoError) (h : scanRows items acc = (r, some e)) :
    Except.error e ∈ items := by
  induction items generalizing acc with
  | nil => simp [scanRows] at h
  | cons a l ih =>
    cases a with
    | error e1 =>
      simp [scanRows] at h
      simp [h.2]
    | ok row =>
      simp only [scanRows] at h
      exact List.mem_cons_of_mem _ (ih _ h)

theorem Rows.over_err {α : Type} (d : Draw) (rows : List α) (e : GoError)
    (h : Except.error e ∈ (Rows.over d rows).items) : ∃ i, d.scanFail = some (i, e) := by
  have hset : (Except.error e ∈ match d.scanFail with
        | some (i, err) => (rows.map Except.ok).set i (.error err)
        | none => rows.map Except.ok) → ∃ i, d.scanFail = some (i, e) := by
    intro hm
    cases hs : d.scanFail with
    | none => simp [hs] at hm
    | some ie =>
      obtain ⟨i, err⟩ := ie
      simp only [hs] at hm
      rcases List.mem_or_eq_of_mem_set hm with h1 | h1
      · simp at h1
      · cases h1
        exact ⟨i, rfl⟩
  unfold Rows.over at h
  cases hn : d.nextFail with
  | none =>
    simp only [hn] at h
    exact hset h
  | some ne =>
    obtain ⟨n, err⟩ := ne
    simp only [hn] at h
    exact hset (List.mem_of_mem_take h)

theorem Rows.over_next {α : Type} (d : Draw) (rows : List α) (n : Nat) (e : GoError)
    (hs : d.scanFail = none) (hn : d.nextFail = some (n, e)) :
    (Rows.over d rows).items = (rows.take n).map Except.ok := by
  simp [Rows.over, hs, hn, List.map_take]

/-- C20: `UsersGetAllTx` and `PostsGetAllTx` return a non-nil error only when it is the
error of the query itself or the error of a failed `rows.Scan`; and when `rows.Next`
stops after `n` rows with a pending `rows.Err()` (the query and the scans not
failing), they return the `n` rows read so far together with a nil error: the
iteration error is not reported. -/
theorem get_all_drops_iteration_error (tx : Tx) :
    (∀ e, (UsersGetAllTx tx).1.2 = some e →
      tx.draw.1.fault = some e ∨ ∃ i, tx.draw.1.scanFail = some (i, e)) ∧
    (∀ e, (PostsGetAllTx tx).1.2 = some e →
      tx.draw.1.fault = some e ∨ ∃ i, tx.draw.1.scanFail = some (i, e)) ∧
    (∀ n e, tx.draw.1.fault = none → tx.draw.1.scanFail = none →
      tx.draw.1.nextFail = some (n, e) →
      (UsersGetAllTx tx).1 = (some ((orderUsers tx.users).take n), none) ∧
      (PostsGetAllTx tx).1 = (some ((orderPosts tx.posts).take n), none)) := by
  rcases tx with ⟨u, p, s, d, cs⟩
  cases d with
  | nil =>
    refine ⟨?_, ?_, ?_⟩
    · intro e h
      simp [UsersGetAllTx, Tx.queryUsers, Tx.draw, Tx.called, Draw.quiet, Rows.over,
        scanRows_ok] at h
    · intro e h
      simp [PostsGetAllTx, Tx.queryPosts, Tx.draw, Tx.called, Draw.quiet, Rows.over,
        scanRows_ok] at h
    · intro n e _ _ hn
      simp [Tx.draw, Draw.quiet] at hn
  | cons d ds =>
    simp only [Tx.draw]
    refine ⟨?_, ?_, ?_⟩
    · intro e h
      cases hf : d.fault with
      | some e1 =>
        by_cases he : e1 = GoError.ErrNoRows
        · simp [UsersGetAllTx, Tx.queryUsers, Tx.draw, Tx.called, hf, he] at h
        · simp [UsersGetAllTx, Tx.queryUsers, Tx.draw, Tx.called, hf, he] at h
          simp [h]
      | none =>
        right
        simp only [UsersGetAllTx, Tx.queryUsers, Tx.draw, Tx.called, hf] at h
        exact Rows.over_err d _ e (scanRows_err _ [] _ e (Prod.ext rfl h))
    · intro e h
      cases hf : d.fault with
      | some e1 =>
        simp [PostsGetAllTx, Tx.queryPosts, Tx.draw, Tx.called, hf] at h
        simp [h]
      | none =>
        right
        simp only [PostsGetAllTx, Tx.queryPosts, Tx.draw, Tx.called, hf] at h
        exact Rows.over_err d _ e (scanRows_err _ [] _ e (Prod.ext rfl h))
    · intro n e hf hs hn
      have hu := Rows.over_next d (orderUsers u) n e hs hn
      have hp := Rows.over_next d (orderPosts p) n e hs hn
      simp [UsersGetAllTx, PostsGetAllTx, Tx.queryUsers, Tx.queryPosts, Tx.draw, Tx.called, hf,
        hu, hp, scanRows_ok]
      rw [← List.map_take, ← List.map_take, scanRows_ok, scanRows_ok]
      simp

/-- C20 at the fixture of the tests, with a server whose cursor stops after one row with
a pending error: `UsersGetAllTx` returns the first row of the ordered table and a nil
error. -/
theorem get_all_drops_iteration_error_witness :
    (UsersGetAllTx { fixtureDB.begin with
      draws := [⟨none, 0, 0, none, some (1, .errorf "driver: bad connection")⟩] }).1 =
      (some ((orderUsers fixtureDB.begin.users).take 1), none) :=
  ((get_all_drops_iteration_error { fixtureDB.begin with
      draws := [⟨none, 0, 0, none, some (1, .errorf "driver: bad connection")⟩] }).2.2
    1 (.errorf "driver: bad connection") rfl rfl rfl).1

end Trase
